import Mathlib

/-!
Verification development for a JSON netlist codec (Rust, serde-based).

The source is a single library file defining the data model (`Netlist`,
`Module`, `Port`, `Cell`, `Memory`, `Net`, `Bit`, `Direction`) together
with serde (de)serialization: a custom codec for `Bit` (`BitVisitor`),
a boolean-as-integer flag codec (`serialize_bool_u64` /
`deserialize_u64_bool`), derived struct codecs with `#[serde(flatten)]`
passthrough maps, and `IndexMap`-backed order-preserving named mappings.

The shallow embedding below models the JSON value tree the way serde_json
represents it, and the decode/encode routines the way serde's derived and
hand-written implementations execute on such a tree.
-/

namespace YosysNetlist

/-- JSON numbers as represented by serde_json's `Number`: a non-negative
integer stored as a `u64` payload (`uint n`, with `n < 2^64` on real inputs),
or a negative integer stored as an `i64` payload (`nint n`, with `n < 0`).
(Floating-point numbers are not modelled; no claim concerns them.) -/
inductive JNum where
  | uint (n : Nat)
  | nint (n : Int)
deriving DecidableEq, Repr

/-- A JSON value tree (serde_json's `Value`). Objects are ordered lists of
members, as serde_json hands them to a struct/map visitor in document order. -/
inductive Json where
  | null
  | bool (b : Bool)
  | num (n : JNum)
  | str (s : String)
  | arr (elems : List Json)
  | obj (members : List (String × Json))
deriving Repr

/-- serde's `Unexpected`: what kind of value a failing visitor actually saw. -/
inductive Unexp where
  | uintVal (n : Nat)
  | sintVal (n : Int)
  | boolVal (b : Bool)
  | strVal (s : String)
  | unitVal
  | seqVal
  | mapVal
deriving DecidableEq, Repr

/-- Decode errors, mirroring serde's error taxonomy: `invalid_value` and
`invalid_type` both carry the unexpected value and the visitor's `expecting`
message (which states the accepted alternatives); `missing_field` /
`duplicate_field` carry the field name; `unknownVariant` is the derived enum
decoder's error for an unrecognized variant string. -/
inductive DeErr where
  | invalidValue (unexpected : Unexp) (expecting : String)
  | invalidType (unexpected : Unexp) (expecting : String)
  | missingField (field : String)
  | duplicateField (field : String)
  | unknownVariant (variant : String)
deriving DecidableEq, Repr

/-- The `Unexpected` classification of a JSON value, as serde_json reports it
when a visitor receives a value kind it does not handle. -/
def unexpOf : Json → Unexp
  | .null => .unitVal
  | .bool b => .boolVal b
  | .num (.uint n) => .uintVal n
  | .num (.nint n) => .sintVal n
  | .str s => .strVal s
  | .arr _ => .seqVal
  | .obj _ => .mapVal

/-- The `Bit` enum: a numeric signal identifier (`u64` payload) or one of the
four constants. Source constructor names `_0`/`_1` are kept. -/
inductive Bit where
  | Signal (signal : Nat)
  | _0
  | _1
  | Z
  | X
deriving DecidableEq, Repr

/-- `impl Serialize for Bit`: a signal id serializes as a JSON integer, the
constants as the single-character lowercase strings. -/
def Bit.serialize : Bit → Json
  | .Signal signal => .num (.uint signal)
  | ._0 => .str "0"
  | ._1 => .str "1"
  | .Z => .str "z"
  | .X => .str "x"

/-- `BitVisitor`'s `expecting` message (verbatim from the source). -/
def bitExpecting : String := "expecting either, a number, \"0\", \"1\", \"z\", \"x\""

/-- `BitVisitor::visit_str`: the four lowercase constant spellings decode to
the constants; any other string is `invalid_value` naming the string. -/
def BitVisitor.visitStr (v : String) : Except DeErr Bit :=
  match v with
  | "0" => .ok ._0
  | "1" => .ok ._1
  | "z" => .ok .Z
  | "x" => .ok .X
  | _ => .error (.invalidValue (.strVal v) bitExpecting)

/-- `impl Deserialize for Bit` via `deserialize_any(BitVisitor)`: serde_json
dispatches a non-negative integer to `visit_u64`, a string to `visit_str`;
every other value kind hits a default visitor method, which fails with
`invalid_type` carrying the unexpected value and the `expecting` message. -/
def Bit.deserialize : Json → Except DeErr Bit
  | .num (.uint v) => .ok (.Signal v)
  | .str v => BitVisitor.visitStr v
  | j => .error (.invalidType (unexpOf j) bitExpecting)

/-- `serialize_bool_u64`: both arms of the match write the integer 0. -/
def serialize_bool_u64 (value : Bool) : Json :=
  match value with
  | true => .num (.uint 0)
  | false => .num (.uint 0)

/-- `Boolu64Visitor`'s `expecting` message (verbatim from the source). -/
def boolExpecting : String := "expecting u64(1 for true, false otherwise"

/-- `deserialize_u64_bool` via `deserialize_u64(Boolu64Visitor)`: serde_json
routes a non-negative integer to `visit_u64` (giving `v == 1`); a negative
integer is routed to `visit_i64`, which `Boolu64Visitor` does not implement,
so the default method fails with `invalid_type`; non-numbers likewise fail
with `invalid_type`. -/
def deserialize_u64_bool : Json → Except DeErr Bool
  | .num (.uint v) => .ok (v == 1)
  | j => .error (.invalidType (unexpOf j) boolExpecting)

/-- The `Direction` enum. -/
inductive Direction where
  | Input
  | Output
  | InOut
deriving DecidableEq, Repr

/-- Derived `Serialize` for `Direction` with the `rename` attributes. -/
def Direction.serialize : Direction → Json
  | .Input => .str "input"
  | .Output => .str "output"
  | .InOut => .str "inout"

/-- Derived `Deserialize` for `Direction`: the three renamed variant strings
decode; any other string is an unknown-variant error; a non-string is an
`invalid_type` error against the variant-identifier expectation. -/
def Direction.deserialize : Json → Except DeErr Direction
  | .str "input" => .ok .Input
  | .str "output" => .ok .Output
  | .str "inout" => .ok .InOut
  | .str v => .error (.unknownVariant v)
  | j => .error (.invalidType (unexpOf j) "variant identifier")

/-- serde's integer impls (here for `usize`): `visit_u64` succeeds directly;
a negative integer reaches `visit_i64`, whose range check fails for an
unsigned target; non-numbers are `invalid_type`. -/
def decodeUsize : Json → Except DeErr Nat
  | .num (.uint v) => .ok v
  | .num (.nint v) => .error (.invalidValue (.sintVal v) "usize")
  | j => .error (.invalidType (unexpOf j) "usize")

/-- `String`'s `Deserialize`: only a JSON string succeeds. -/
def decodeString : Json → Except DeErr String
  | .str s => .ok s
  | j => .error (.invalidType (unexpOf j) "a string")

/-- `Vec<Bit>`'s `Deserialize`: a JSON array, each element through the `Bit`
codec, in order; the first element error aborts the whole decode. -/
def decodeBits : Json → Except DeErr (List Bit)
  | .arr elems => elems.mapM Bit.deserialize
  | j => .error (.invalidType (unexpOf j) "a sequence")

/-- `IndexMap::insert`: if the key is already present, the value is replaced
at the key's existing position; otherwise the pair is appended at the end. -/
def imInsert (m : List (String × α)) (k : String) (v : α) : List (String × α) :=
  if m.any (fun kv => kv.1 == k) then
    m.map (fun kv => if kv.1 == k then (k, v) else kv)
  else m ++ [(k, v)]

/-- The entry loop of `IndexMap<String, T>`'s map visitor: each entry's value
is decoded and inserted in encounter order. -/
def decodeMapGo (dec : Json → Except DeErr α) :
    List (String × Json) → List (String × α) → Except DeErr (List (String × α))
  | [], acc => .ok acc
  | (k, v) :: rest, acc => do decodeMapGo dec rest (imInsert acc k (← dec v))

/-- `IndexMap<String, T>`'s `Deserialize`: a JSON object, decoded entry by
entry in document order. -/
def decodeStringMap (dec : Json → Except DeErr α) : Json → Except DeErr (List (String × α))
  | .obj members => decodeMapGo dec members []
  | j => .error (.invalidType (unexpOf j) "a map")

/-- `IndexMap<String, T>`'s `Serialize`: emit the entries in stored order. -/
def encodeStringMap (enc : α → Json) (m : List (String × α)) : Json :=
  .obj (m.map (fun kv => (kv.1, enc kv.2)))

/-- `serde_json::Value` as a field type decodes from any JSON value,
unchanged. -/
def decodeValue (j : Json) : Except DeErr Json := .ok j

/-- The derived struct visitor loop shared by all entities: each member of
the object is fed to the entity's per-entry step in document order; the first
error aborts the decode. -/
def structFold (stepf : σ → String → Json → Except DeErr σ) :
    List (String × Json) → σ → Except DeErr σ
  | [], st => .ok st
  | (k, v) :: rest, st => do structFold stepf rest (← stepf st k v)

/-- The `Port` struct. `extra` is the `#[serde(flatten)]` passthrough map. -/
structure Port where
  direction : Direction
  bits : List Bit
  offset : Nat
  upto : Nat
  signed : Bool
  extra : List (String × Json)
deriving Repr

/-- The `Cell` struct; the field named `module` in the source is renamed to
`"type"` on the wire. -/
structure Cell where
  hide_name : Bool
  module : String
  attributes : List (String × Json)
  parameters : List (String × Json)
  port_directions : List (String × Direction)
  connections : List (String × List Bit)
  extra : List (String × Json)
deriving Repr

/-- The `Memory` struct. -/
structure Memory where
  hide_name : Bool
  attributes : List (String × Json)
  width : Nat
  size : Nat
  start_offset : Nat
  extra : List (String × Json)
deriving Repr

/-- The `Net` struct (wire name `"netnames"` entries). -/
structure Net where
  hide_name : Bool
  attributes : List (String × Json)
  bits : List Bit
  offset : Nat
  upto : Nat
  signed : Bool
  extra : List (String × Json)
deriving Repr

/-- The `Module` struct; the source field `nets` is renamed `"netnames"`. -/
structure Module where
  attributes : List (String × Json)
  ports : List (String × Port)
  cells : List (String × Cell)
  memories : List (String × Memory)
  nets : List (String × Net)
  extra : List (String × Json)
deriving Repr

/-- The top-level `Netlist` struct. -/
structure Netlist where
  creator : String
  modules : List (String × Module)
  extra : List (String × Json)
deriving Repr

/-- Working state of the derived `Port` map visitor: one optional slot per
known field plus the collected unknown members. -/
structure PortFields where
  direction : Option Direction := none
  bits : Option (List Bit) := none
  offset : Option Nat := none
  upto : Option Nat := none
  signed : Option Bool := none
  extra : List (String × Json) := []

/-- One entry of the derived `Port` visitor loop: a known key decodes into its
slot (a filled slot is a duplicate-field error), an unknown key is collected
into the flatten buffer. -/
def Port.step (st : PortFields) (k : String) (v : Json) : Except DeErr PortFields :=
    if k = "direction" then
      match st.direction with
      | some _ => .error (.duplicateField "direction")
      | none => do pure { st with direction := some (← Direction.deserialize v) }
    else if k = "bits" then
      match st.bits with
      | some _ => .error (.duplicateField "bits")
      | none => do pure { st with bits := some (← decodeBits v) }
    else if k = "offset" then
      match st.offset with
      | some _ => .error (.duplicateField "offset")
      | none => do pure { st with offset := some (← decodeUsize v) }
    else if k = "upto" then
      match st.upto with
      | some _ => .error (.duplicateField "upto")
      | none => do pure { st with upto := some (← decodeUsize v) }
    else if k = "signed" then
      match st.signed with
      | some _ => .error (.duplicateField "signed")
      | none => do pure { st with signed := some (← deserialize_u64_bool v) }
    else .ok { st with extra := imInsert st.extra k v }

/-- After the loop: required fields must be present (checked in declaration
order), `#[serde(default)]` fields fall back to their defaults. -/
def Port.finish (st : PortFields) : Except DeErr Port := do
  let direction ← match st.direction with
    | some d => pure d
    | none => Except.error (.missingField "direction")
  let bits ← match st.bits with
    | some b => pure b
    | none => Except.error (.missingField "bits")
  pure { direction := direction, bits := bits, offset := st.offset.getD 0,
         upto := st.upto.getD 0, signed := st.signed.getD false, extra := st.extra }

/-- Derived `Deserialize` for `Port` (with flatten, via `deserialize_map`). -/
def Port.deserialize : Json → Except DeErr Port
  | .obj members => structFold Port.step members {} >>= Port.finish
  | j => .error (.invalidType (unexpOf j) "struct Port")

/-- Derived `Serialize` for `Port`: known fields in declaration order, then
the flattened passthrough entries in stored order. -/
def Port.serialize (p : Port) : Json :=
  .obj ([("direction", p.direction.serialize),
         ("bits", .arr (p.bits.map Bit.serialize)),
         ("offset", .num (.uint p.offset)),
         ("upto", .num (.uint p.upto)),
         ("signed", serialize_bool_u64 p.signed)] ++ p.extra)

/-- Working state of the derived `Cell` map visitor. -/
structure CellFields where
  hide_name : Option Bool := none
  module : Option String := none
  attributes : Option (List (String × Json)) := none
  parameters : Option (List (String × Json)) := none
  port_directions : Option (List (String × Direction)) := none
  connections : Option (List (String × List Bit)) := none
  extra : List (String × Json) := []

/-- One entry of the derived `Cell` visitor loop (`module` is keyed by the
wire name `"type"`). -/
def Cell.step (st : CellFields) (k : String) (v : Json) : Except DeErr CellFields :=
    if k = "hide_name" then
      match st.hide_name with
      | some _ => .error (.duplicateField "hide_name")
      | none => do pure { st with hide_name := some (← deserialize_u64_bool v) }
    else if k = "type" then
      match st.module with
      | some _ => .error (.duplicateField "type")
      | none => do pure { st with module := some (← decodeString v) }
    else if k = "attributes" then
      match st.attributes with
      | some _ => .error (.duplicateField "attributes")
      | none => do pure { st with attributes := some (← decodeStringMap decodeValue v) }
    else if k = "parameters" then
      match st.parameters with
      | some _ => .error (.duplicateField "parameters")
      | none => do pure { st with parameters := some (← decodeStringMap decodeValue v) }
    else if k = "port_directions" then
      match st.port_directions with
      | some _ => .error (.duplicateField "port_directions")
      | none => do pure { st with port_directions := some (← decodeStringMap Direction.deserialize v) }
    else if k = "connections" then
      match st.connections with
      | some _ => .error (.duplicateField "connections")
      | none => do pure { st with connections := some (← decodeStringMap decodeBits v) }
    else .ok { st with extra := imInsert st.extra k v }

/-- After the loop: only `"type"` is required; the rest default. -/
def Cell.finish (st : CellFields) : Except DeErr Cell := do
  let module ← match st.module with
    | some m => pure m
    | none => Except.error (.missingField "type")
  pure { hide_name := st.hide_name.getD false, module := module,
         attributes := st.attributes.getD [], parameters := st.parameters.getD [],
         port_directions := st.port_directions.getD [],
         connections := st.connections.getD [], extra := st.extra }

/-- Derived `Deserialize` for `Cell`. -/
def Cell.deserialize : Json → Except DeErr Cell
  | .obj members => structFold Cell.step members {} >>= Cell.finish
  | j => .error (.invalidType (unexpOf j) "struct Cell")

/-- Derived `Serialize` for `Cell`. -/
def Cell.serialize (c : Cell) : Json :=
  .obj ([("hide_name", serialize_bool_u64 c.hide_name),
         ("type", .str c.module),
         ("attributes", .obj c.attributes),
         ("parameters", .obj c.parameters),
         ("port_directions", encodeStringMap Direction.serialize c.port_directions),
         ("connections", encodeStringMap (fun bs => .arr (bs.map Bit.serialize)) c.connections)]
        ++ c.extra)

/-- Working state of the derived `Memory` map visitor. -/
structure MemoryFields where
  hide_name : Option Bool := none
  attributes : Option (List (String × Json)) := none
  width : Option Nat := none
  size : Option Nat := none
  start_offset : Option Nat := none
  extra : List (String × Json) := []

/-- One entry of the derived `Memory` visitor loop. -/
def Memory.step (st : MemoryFields) (k : String) (v : Json) : Except DeErr MemoryFields :=
    if k = "hide_name" then
      match st.hide_name with
      | some _ => .error (.duplicateField "hide_name")
      | none => do pure { st with hide_name := some (← deserialize_u64_bool v) }
    else if k = "attributes" then
      match st.attributes with
      | some _ => .error (.duplicateField "attributes")
      | none => do pure { st with attributes := some (← decodeStringMap decodeValue v) }
    else if k = "width" then
      match st.width with
      | some _ => .error (.duplicateField "width")
      | none => do pure { st with width := some (← decodeUsize v) }
    else if k = "size" then
      match st.size with
      | some _ => .error (.duplicateField "size")
      | none => do pure { st with size := some (← decodeUsize v) }
    else if k = "start_offset" then
      match st.start_offset with
      | some _ => .error (.duplicateField "start_offset")
      | none => do pure { st with start_offset := some (← decodeUsize v) }
    else .ok { st with extra := imInsert st.extra k v }

/-- After the loop: `width` and `size` are required (checked in declaration
order); the rest default. -/
def Memory.finish (st : MemoryFields) : Except DeErr Memory := do
  let width ← match st.width with
    | some w => pure w
    | none => Except.error (.missingField "width")
  let size ← match st.size with
    | some s => pure s
    | none => Except.error (.missingField "size")
  pure { hide_name := st.hide_name.getD false, attributes := st.attributes.getD [],
         width := width, size := size, start_offset := st.start_offset.getD 0,
         extra := st.extra }

/-- Derived `Deserialize` for `Memory`. -/
def Memory.deserialize : Json → Except DeErr Memory
  | .obj members => structFold Memory.step members {} >>= Memory.finish
  | j => .error (.invalidType (unexpOf j) "struct Memory")

/-- Derived `Serialize` for `Memory`. -/
def Memory.serialize (m : Memory) : Json :=
  .obj ([("hide_name", serialize_bool_u64 m.hide_name),
         ("attributes", .obj m.attributes),
         ("width", .num (.uint m.width)),
         ("size", .num (.uint m.size)),
         ("start_offset", .num (.uint m.start_offset))] ++ m.extra)

/-- Working state of the derived `Net` map visitor. -/
structure NetFields where
  hide_name : Option Bool := none
  attributes : Option (List (String × Json)) := none
  bits : Option (List Bit) := none
  offset : Option Nat := none
  upto : Option Nat := none
  signed : Option Bool := none
  extra : List (String × Json) := []

/-- One entry of the derived `Net` visitor loop. -/
def Net.step (st : NetFields) (k : String) (v : Json) : Except DeErr NetFields :=
    if k = "hide_name" then
      match st.hide_name with
      | some _ => .error (.duplicateField "hide_name")
      | none => do pure { st with hide_name := some (← deserialize_u64_bool v) }
    else if k = "attributes" then
      match st.attributes with
      | some _ => .error (.duplicateField "attributes")
      | none => do pure { st with attributes := some (← decodeStringMap decodeValue v) }
    else if k = "bits" then
      match st.bits with
      | some _ => .error (.duplicateField "bits")
      | none => do pure { st with bits := some (← decodeBits v) }
    else if k = "offset" then
      match st.offset with
      | some _ => .error (.duplicateField "offset")
      | none => do pure { st with offset := some (← decodeUsize v) }
    else if k = "upto" then
      match st.upto with
      | some _ => .error (.duplicateField "upto")
      | none => do pure { st with upto := some (← decodeUsize v) }
    else if k = "signed" then
      match st.signed with
      | some _ => .error (.duplicateField "signed")
      | none => do pure { st with signed := some (← deserialize_u64_bool v) }
    else .ok { st with extra := imInsert st.extra k v }

/-- After the loop: only `bits` is required; the rest default. -/
def Net.finish (st : NetFields) : Except DeErr Net := do
  let bits ← match st.bits with
    | some b => pure b
    | none => Except.error (.missingField "bits")
  pure { hide_name := st.hide_name.getD false, attributes := st.attributes.getD [],
         bits := bits, offset := st.offset.getD 0, upto := st.upto.getD 0,
         signed := st.signed.getD false, extra := st.extra }

/-- Derived `Deserialize` for `Net`. -/
def Net.deserialize : Json → Except DeErr Net
  | .obj members => structFold Net.step members {} >>= Net.finish
  | j => .error (.invalidType (unexpOf j) "struct Net")

/-- Derived `Serialize` for `Net`. -/
def Net.serialize (n : Net) : Json :=
  .obj ([("hide_name", serialize_bool_u64 n.hide_name),
         ("attributes", .obj n.attributes),
         ("bits", .arr (n.bits.map Bit.serialize)),
         ("offset", .num (.uint n.offset)),
         ("upto", .num (.uint n.upto)),
         ("signed", serialize_bool_u64 n.signed)] ++ n.extra)

/-- Working state of the derived `Module` map visitor. -/
structure ModuleFields where
  attributes : Option (List (String × Json)) := none
  ports : Option (List (String × Port)) := none
  cells : Option (List (String × Cell)) := none
  memories : Option (List (String × Memory)) := none
  nets : Option (List (String × Net)) := none
  extra : List (String × Json) := []

/-- One entry of the derived `Module` visitor loop (`nets` is keyed by the
wire name `"netnames"`). -/
def Module.step (st : ModuleFields) (k : String) (v : Json) : Except DeErr ModuleFields :=
    if k = "attributes" then
      match st.attributes with
      | some _ => .error (.duplicateField "attributes")
      | none => do pure { st with attributes := some (← decodeStringMap decodeValue v) }
    else if k = "ports" then
      match st.ports with
      | some _ => .error (.duplicateField "ports")
      | none => do pure { st with ports := some (← decodeStringMap Port.deserialize v) }
    else if k = "cells" then
      match st.cells with
      | some _ => .error (.duplicateField "cells")
      | none => do pure { st with cells := some (← decodeStringMap Cell.deserialize v) }
    else if k = "memories" then
      match st.memories with
      | some _ => .error (.duplicateField "memories")
      | none => do pure { st with memories := some (← decodeStringMap Memory.deserialize v) }
    else if k = "netnames" then
      match st.nets with
      | some _ => .error (.duplicateField "netnames")
      | none => do pure { st with nets := some (← decodeStringMap Net.deserialize v) }
    else .ok { st with extra := imInsert st.extra k v }

/-- After the loop: every `Module` field is `#[serde(default)]`, so nothing
is required and absent collections become empty ordered mappings. -/
def Module.finish (st : ModuleFields) : Except DeErr Module :=
  .ok { attributes := st.attributes.getD [], ports := st.ports.getD [],
        cells := st.cells.getD [], memories := st.memories.getD [],
        nets := st.nets.getD [], extra := st.extra }

/-- Derived `Deserialize` for `Module`. -/
def Module.deserialize : Json → Except DeErr Module
  | .obj members => structFold Module.step members {} >>= Module.finish
  | j => .error (.invalidType (unexpOf j) "struct Module")

/-- Derived `Serialize` for `Module`. -/
def Module.serialize (m : Module) : Json :=
  .obj ([("attributes", .obj m.attributes),
         ("ports", encodeStringMap Port.serialize m.ports),
         ("cells", encodeStringMap Cell.serialize m.cells),
         ("memories", encodeStringMap Memory.serialize m.memories),
         ("netnames", encodeStringMap Net.serialize m.nets)] ++ m.extra)

/-- Working state of the derived `Netlist` map visitor. -/
structure NetlistFields where
  creator : Option String := none
  modules : Option (List (String × Module)) := none
  extra : List (String × Json) := []

/-- One entry of the derived `Netlist` visitor loop. -/
def Netlist.step (st : NetlistFields) (k : String) (v : Json) : Except DeErr NetlistFields :=
    if k = "creator" then
      match st.creator with
      | some _ => .error (.duplicateField "creator")
      | none => do pure { st with creator := some (← decodeString v) }
    else if k = "modules" then
      match st.modules with
      | some _ => .error (.duplicateField "modules")
      | none => do pure { st with modules := some (← decodeStringMap Module.deserialize v) }
    else .ok { st with extra := imInsert st.extra k v }

/-- After the loop: `creator` and `modules` are required (declaration order). -/
def Netlist.finish (st : NetlistFields) : Except DeErr Netlist := do
  let creator ← match st.creator with
    | some c => pure c
    | none => Except.error (.missingField "creator")
  let modules ← match st.modules with
    | some m => pure m
    | none => Except.error (.missingField "modules")
  pure { creator := creator, modules := modules, extra := st.extra }

/-- Derived `Deserialize` for `Netlist` (entry point `Netlist::from_value`). -/
def Netlist.deserialize : Json → Except DeErr Netlist
  | .obj members => structFold Netlist.step members {} >>= Netlist.finish
  | j => .error (.invalidType (unexpOf j) "struct Netlist")

/-- Derived `Serialize` for `Netlist` (entry point `Netlist::to_string`). -/
def Netlist.serialize (n : Netlist) : Json :=
  .obj ([("creator", .str n.creator),
         ("modules", encodeStringMap Module.serialize n.modules)] ++ n.extra)

/-- The set of `Module` field keys recognized by the derived decoder. -/
def knownModuleKey (k : String) : Bool :=
  k == "attributes" || k == "ports" || k == "cells" || k == "memories" || k == "netnames"

/-- The set of `Netlist` field keys recognized by the derived decoder. -/
def knownNetlistKey (k : String) : Bool :=
  k == "creator" || k == "modules"

/-- The set of `Port` field keys recognized by the derived decoder. -/
def knownPortKey (k : String) : Bool :=
  k == "direction" || k == "bits" || k == "offset" || k == "upto" || k == "signed"

/-- The set of `Cell` field keys recognized by the derived decoder. -/
def knownCellKey (k : String) : Bool :=
  k == "hide_name" || k == "type" || k == "attributes" || k == "parameters" ||
    k == "port_directions" || k == "connections"

/-- The set of `Memory` field keys recognized by the derived decoder. -/
def knownMemoryKey (k : String) : Bool :=
  k == "hide_name" || k == "attributes" || k == "width" || k == "size" ||
    k == "start_offset"

/-- The set of `Net` field keys recognized by the derived decoder. -/
def knownNetKey (k : String) : Bool :=
  k == "hide_name" || k == "attributes" || k == "bits" || k == "offset" ||
    k == "upto" || k == "signed"

def sampleCell : Cell :=
  { hide_name := false, module := "m", attributes := [], parameters := [],
    port_directions := [], connections := [], extra := [] }

def sampleMemory : Memory :=
  { hide_name := false, attributes := [], width := 0, size := 0, start_offset := 0,
    extra := [] }

def samplePort : Port :=
  { direction := .Input, bits := [], offset := 0, upto := 0, signed := false, extra := [] }

def barPort : Port :=
  { direction := .Input, bits := [], offset := 0, upto := 0, signed := false,
    extra := [("bar", Json.null)] }

def emptyModule : Module :=
  { attributes := [], ports := [], cells := [], memories := [], nets := [], extra := [] }

def C5doc : Json :=
  .obj [("creator", .str "t"), ("modules", .obj []), ("foo", .num (.uint 1))]

def C5netlist : Netlist :=
  { creator := "t", modules := [], extra := [("foo", .num (.uint 1))] }

def C6netlist : Netlist :=
  { creator := "t", modules := [("b", emptyModule), ("a", emptyModule)],
    extra := [("foo", Json.null)] }

def C9doc : Json :=
  .obj [("creator", .str "t"),
        ("modules", .obj [("m", .obj [("ports", .obj [("p", .obj
          [("direction", .str "input"),
           ("bits", .arr [.num (.uint 0), .str "1", .str "x"])])])])])]

def C9port : Port :=
  { direction := .Input, bits := [.Signal 0, ._1, .X], offset := 0, upto := 0,
    signed := false, extra := [] }

def C9module : Module :=
  { attributes := [], ports := [("p", C9port)], cells := [], memories := [],
    nets := [], extra := [] }

def C9netlist : Netlist :=
  { creator := "t", modules := [("m", C9module)], extra := [] }

def C9encoded : Json :=
  .obj [("creator", .str "t"),
        ("modules", .obj [("m", .obj
          [("attributes", .obj []),
           ("ports", .obj [("p", .obj
             [("direction", .str "input"),
              ("bits", .arr [.num (.uint 0), .str "1", .str "x"]),
              ("offset", .num (.uint 0)),
              ("upto", .num (.uint 0)),
              ("signed", .num (.uint 0))])]),
           ("cells", .obj []),
           ("memories", .obj []),
           ("netnames", .obj [])])])]

def uptoPort (v : Nat) : Port :=
  { direction := .Input, bits := [], offset := 0, upto := v, signed := false, extra := [] }

def offsetPort (v : Nat) : Port :=
  { direction := .Input, bits := [], offset := v, upto := 0, signed := false, extra := [] }

def uptoNet (v : Nat) : Net :=
  { hide_name := false, attributes := [], bits := [], offset := 0, upto := v,
    signed := false, extra := [] }

def offsetNet (v : Nat) : Net :=
  { hide_name := false, attributes := [], bits := [], offset := v, upto := 0,
    signed := false, extra := [] }

theorem except_bind_ok {α β : Type _} {x : Except DeErr α} {f : α → Except DeErr β} {b : β}
    (h : (x >>= f) = .ok b) : ∃ a, x = .ok a ∧ f a = .ok b := by
  cases x with
  | error e => simp [Bind.bind, Except.bind] at h
  | ok a => exact ⟨a, rfl, by simpa [Bind.bind, Except.bind] using h⟩

theorem imInsert_of_not_mem (m : List (String × α)) (k : String) (v : α)
    (h : k ∉ m.map Prod.fst) : imInsert m k v = m ++ [(k, v)] := by
  unfold imInsert
  rw [if_neg]
  simp only [List.any_eq_true, beq_iff_eq, not_exists, not_and]
  intro kv hkv hk
  exact h (hk ▸ List.mem_map_of_mem Prod.fst hkv)

theorem decodeMapGo_keys (dec : Json → Except DeErr α) :
    ∀ (members : List (String × Json)) (acc m : List (String × α)),
      (acc.map Prod.fst ++ members.map Prod.fst).Nodup →
      decodeMapGo dec members acc = .ok m →
      m.map Prod.fst = acc.map Prod.fst ++ members.map Prod.fst := by
  intro members
  induction members with
  | nil =>
    intro acc m _ h
    simp only [decodeMapGo] at h
    cases h
    simp
  | cons kv rest ih =>
    intro acc m hnd h
    obtain ⟨k, v⟩ := kv
    simp only [decodeMapGo] at h
    cases hdec : dec v with
    | error e => rw [hdec] at h; simp [Bind.bind, Except.bind] at h
    | ok x =>
      rw [hdec] at h
      simp only [Bind.bind, Except.bind] at h
      rw [List.nodup_append] at hnd
      have hk : k ∉ acc.map Prod.fst := fun hmem => hnd.2.2 hmem (by simp)
      rw [imInsert_of_not_mem acc k x hk] at h
      have hnd' : ((acc ++ [(k, x)]).map Prod.fst ++ rest.map Prod.fst).Nodup := by
        simp only [List.map_append, List.map_cons, List.map_nil, List.append_assoc,
          List.singleton_append]
        rw [List.nodup_append]
        refine ⟨hnd.1, by simpa using hnd.2.1, ?_⟩
        intro a ha hb
        exact hnd.2.2 ha (by simpa using hb)
      simpa [List.append_assoc] using ih (acc ++ [(k, x)]) m hnd' h

theorem decodeStringMap_keys (dec : Json → Except DeErr α)
    (members : List (String × Json)) (m : List (String × α))
    (hnd : (members.map Prod.fst).Nodup)
    (h : decodeStringMap dec (.obj members) = .ok m) :
    m.map Prod.fst = members.map Prod.fst := by
  simpa using decodeMapGo_keys dec members [] m (by simpa using hnd) (by simpa [decodeStringMap] using h)

theorem structFold_frozen {σ : Type _} {γ : Type _} (stepf : σ → String → Json → Except DeErr σ)
    (f : σ → Option γ) (key : String)
    (hstep : ∀ st k v st', stepf st k v = .ok st' → k ≠ key → f st' = f st) :
    ∀ (entries : List (String × Json)) (st st' : σ),
      structFold stepf entries st = .ok st' → key ∉ entries.map Prod.fst →
      f st' = f st := by
  intro entries
  induction entries with
  | nil =>
    intro st st' h _
    simp only [structFold] at h
    cases h
    rfl
  | cons kv rest ih =>
    intro st st' h hk
    obtain ⟨k, v⟩ := kv
    simp only [structFold] at h
    obtain ⟨st₁, h1, h2⟩ := except_bind_ok h
    simp only [List.map_cons, List.mem_cons, not_or] at hk
    rw [ih st₁ st' h2 hk.2, hstep st k v st₁ h1 (fun e => hk.1 e.symm)]

theorem structFold_set {σ : Type _} {γ : Type _} (stepf : σ → String → Json → Except DeErr σ)
    (f : σ → Option γ) (key : String) (dec : Json → Except DeErr γ)
    (hfrozen : ∀ st k v st', stepf st k v = .ok st' → k ≠ key → f st' = f st)
    (hset : ∀ st v st', f st = none → stepf st key v = .ok st' →
      ∃ x, dec v = .ok x ∧ f st' = some x) :
    ∀ (entries : List (String × Json)) (st st' : σ) (v : Json),
      structFold stepf entries st = .ok st' → (key, v) ∈ entries →
      (entries.map Prod.fst).Nodup → f st = none →
      ∃ x, dec v = .ok x ∧ f st' = some x := by
  intro entries
  induction entries with
  | nil =>
    intro st st' v _ hmem
    cases hmem
  | cons kv rest ih =>
    intro st st' v h hmem hnd hnone
    obtain ⟨k, w⟩ := kv
    simp only [structFold] at h
    obtain ⟨st₁, h1, h2⟩ := except_bind_ok h
    simp only [List.map_cons, List.nodup_cons] at hnd
    rcases List.mem_cons.mp hmem with heq | hmem'
    · cases heq
      obtain ⟨x, hx, hfx⟩ := hset st v st₁ hnone h1
      refine ⟨x, hx, ?_⟩
      rw [structFold_frozen stepf f key hfrozen rest st₁ st' h2 hnd.1]
      exact hfx
    · have hkne : k ≠ key := by
        intro e
        exact hnd.1 (e ▸ List.mem_map_of_mem Prod.fst hmem')
      have hnone₁ : f st₁ = none := by rw [hfrozen st k w st₁ h1 hkne]; exact hnone
      exact ih st₁ st' v h2 hmem' hnd.2 hnone₁

theorem structFold_extra {σ : Type _} (stepf : σ → String → Json → Except DeErr σ)
    (extraOf : σ → List (String × Json)) (known : String → Bool)
    (hknown : ∀ st k v st', stepf st k v = .ok st' → known k = true → extraOf st' = extraOf st)
    (hunknown : ∀ st k v st', stepf st k v = .ok st' → known k = false →
      extraOf st' = imInsert (extraOf st) k v) :
    ∀ (entries : List (String × Json)) (st st' : σ),
      structFold stepf entries st = .ok st' →
      ((extraOf st).map Prod.fst ++ entries.map Prod.fst).Nodup →
      extraOf st' = extraOf st ++ entries.filter (fun kv => !(known kv.1)) := by
  intro entries
  induction entries with
  | nil =>
    intro st st' h _
    simp only [structFold] at h
    cases h
    simp
  | cons kv rest ih =>
    intro st st' h hnd
    obtain ⟨k, w⟩ := kv
    simp only [structFold] at h
    obtain ⟨st₁, h1, h2⟩ := except_bind_ok h
    rw [List.nodup_append] at hnd
    cases hkk : known k with
    | true =>
      have he : extraOf st₁ = extraOf st := hknown st k w st₁ h1 hkk
      have hnd' : ((extraOf st₁).map Prod.fst ++ rest.map Prod.fst).Nodup := by
        rw [he, List.nodup_append]
        exact ⟨hnd.1, (List.nodup_cons.mp hnd.2.1).2,
          fun a ha hb => hnd.2.2 ha (List.mem_cons_of_mem _ hb)⟩
      rw [ih st₁ st' h2 hnd', he, List.filter_cons]
      simp [hkk]
    | false =>
      have hkext : k ∉ (extraOf st).map Prod.fst := fun hmem => hnd.2.2 hmem (by simp)
      have he : extraOf st₁ = extraOf st ++ [(k, w)] := by
        rw [hunknown st k w st₁ h1 hkk, imInsert_of_not_mem _ _ _ hkext]
      have hnd' : ((extraOf st₁).map Prod.fst ++ rest.map Prod.fst).Nodup := by
        rw [he]
        simp only [List.map_append, List.map_cons, List.map_nil, List.append_assoc,
          List.singleton_append]
        rw [List.nodup_append]
        refine ⟨hnd.1, by simpa using hnd.2.1, ?_⟩
        intro a ha hb
        exact hnd.2.2 ha (by simpa using hb)
      rw [ih st₁ st' h2 hnd', he, List.filter_cons]
      simp [hkk]

/-- Entries whose key is not `"ports"` leave the `ports` slot of the
`Module` visitor state unchanged. -/
theorem Module.step_ne_ports (st : ModuleFields) (k : String) (v : Json) (st' : ModuleFields)
    (h : Module.step st k v = .ok st') (hk : k ≠ "ports") : st'.ports = st.ports := by
  unfold Module.step at h
  split_ifs at h
  all_goals try (exact absurd (by assumption) hk)
  all_goals try (cases h; rfl)
  all_goals split at h
  all_goals try (cases h)
  all_goals obtain ⟨a, ha, h2⟩ := except_bind_ok h
  all_goals simp only [pure, Except.pure] at h2
  all_goals (cases h2; rfl)

/-- Entries whose key is not `"cells"` leave the `cells` slot of the
`Module` visitor state unchanged. -/
theorem Module.step_ne_cells (st : ModuleFields) (k : String) (v : Json) (st' : ModuleFields)
    (h : Module.step st k v = .ok st') (hk : k ≠ "cells") : st'.cells = st.cells := by
  unfold Module.step at h
  split_ifs at h
  all_goals try (exact absurd (by assumption) hk)
  all_goals try (cases h; rfl)
  all_goals split at h
  all_goals try (cases h)
  all_goals obtain ⟨a, ha, h2⟩ := except_bind_ok h
  all_goals simp only [pure, Except.pure] at h2
  all_goals (cases h2; rfl)

/-- Entries whose key is not `"memories"` leave the `memories` slot of the
`Module` visitor state unchanged. -/
theorem Module.step_ne_memories (st : ModuleFields) (k : String) (v : Json) (st' : ModuleFields)
    (h : Module.step st k v = .ok st') (hk : k ≠ "memories") : st'.memories = st.memories := by
  unfold Module.step at h
  split_ifs at h
  all_goals try (exact absurd (by assumption) hk)
  all_goals try (cases h; rfl)
  all_goals split at h
  all_goals try (cases h)
  all_goals obtain ⟨a, ha, h2⟩ := except_bind_ok h
  all_goals simp only [pure, Except.pure] at h2
  all_goals (cases h2; rfl)

/-- Entries whose key is not `"netnames"` leave the `nets` slot of the
`Module` visitor state unchanged. -/
theorem Module.step_ne_nets (st : ModuleFields) (k : String) (v : Json) (st' : ModuleFields)
    (h : Module.step st k v = .ok st') (hk : k ≠ "netnames") : st'.nets = st.nets := by
  unfold Module.step at h
  split_ifs at h
  all_goals try (exact absurd (by assumption) hk)
  all_goals try (cases h; rfl)
  all_goals split at h
  all_goals try (cases h)
  all_goals obtain ⟨a, ha, h2⟩ := except_bind_ok h
  all_goals simp only [pure, Except.pure] at h2
  all_goals (cases h2; rfl)

/-- Entries whose key is not `"modules"` leave the `modules` slot of the
`Netlist` visitor state unchanged. -/
theorem Netlist.step_ne_modules (st : NetlistFields) (k : String) (v : Json) (st' : NetlistFields)
    (h : Netlist.step st k v = .ok st') (hk : k ≠ "modules") : st'.modules = st.modules := by
  unfold Netlist.step at h
  split_ifs at h
  all_goals try (exact absurd (by assumption) hk)
  all_goals try (cases h; rfl)
  all_goals split at h
  all_goals try (cases h)
  all_goals obtain ⟨a, ha, h2⟩ := except_bind_ok h
  all_goals simp only [pure, Except.pure] at h2
  all_goals (cases h2; rfl)

/-- Entries whose key is not `"type"` leave the `module` slot of the
`Cell` visitor state unchanged. -/
theorem Cell.step_ne_module (st : CellFields) (k : String) (v : Json) (st' : CellFields)
    (h : Cell.step st k v = .ok st') (hk : k ≠ "type") : st'.module = st.module := by
  unfold Cell.step at h
  split_ifs at h
  all_goals try (exact absurd (by assumption) hk)
  all_goals try (cases h; rfl)
  all_goals split at h
  all_goals try (cases h)
  all_goals obtain ⟨a, ha, h2⟩ := except_bind_ok h
  all_goals simp only [pure, Except.pure] at h2
  all_goals (cases h2; rfl)

/-- Entries whose key is not `"width"` leave the `width` slot of the
`Memory` visitor state unchanged. -/
theorem Memory.step_ne_width (st : MemoryFields) (k : String) (v : Json) (st' : MemoryFields)
    (h : Memory.step st k v = .ok st') (hk : k ≠ "width") : st'.width = st.width := by
  unfold Memory.step at h
  split_ifs at h
  all_goals try (exact absurd (by assumption) hk)
  all_goals try (cases h; rfl)
  all_goals split at h
  all_goals try (cases h)
  all_goals obtain ⟨a, ha, h2⟩ := except_bind_ok h
  all_goals simp only [pure, Except.pure] at h2
  all_goals (cases h2; rfl)

/-- Entries whose key is not `"size"` leave the `size` slot of the
`Memory` visitor state unchanged. -/
theorem Memory.step_ne_size (st : MemoryFields) (k : String) (v : Json) (st' : MemoryFields)
    (h : Memory.step st k v = .ok st') (hk : k ≠ "size") : st'.size = st.size := by
  unfold Memory.step at h
  split_ifs at h
  all_goals try (exact absurd (by assumption) hk)
  all_goals try (cases h; rfl)
  all_goals split at h
  all_goals try (cases h)
  all_goals obtain ⟨a, ha, h2⟩ := except_bind_ok h
  all_goals simp only [pure, Except.pure] at h2
  all_goals (cases h2; rfl)

/-- Entries whose key is not `"direction"` leave the `direction` slot of the
`Port` visitor state unchanged. -/
theorem Port.step_ne_direction (st : PortFields) (k : String) (v : Json) (st' : PortFields)
    (h : Port.step st k v = .ok st') (hk : k ≠ "direction") : st'.direction = st.direction := by
  unfold Port.step at h
  split_ifs at h
  all_goals try (exact absurd (by assumption) hk)
  all_goals try (cases h; rfl)
  all_goals split at h
  all_goals try (cases h)
  all_goals obtain ⟨a, ha, h2⟩ := except_bind_ok h
  all_goals simp only [pure, Except.pure] at h2
  all_goals (cases h2; rfl)

/-- Entries whose key is not `"bits"` leave the `bits` slot of the
`Port` visitor state unchanged. -/
theorem Port.step_ne_bits (st : PortFields) (k : String) (v : Json) (st' : PortFields)
    (h : Port.step st k v = .ok st') (hk : k ≠ "bits") : st'.bits = st.bits := by
  unfold Port.step at h
  split_ifs at h
  all_goals try (exact absurd (by assumption) hk)
  all_goals try (cases h; rfl)
  all_goals split at h
  all_goals try (cases h)
  all_goals obtain ⟨a, ha, h2⟩ := except_bind_ok h
  all_goals simp only [pure, Except.pure] at h2
  all_goals (cases h2; rfl)

/-- An entry keyed `"ports"` fills the empty `ports` slot of the `Module`
visitor state with the decoded value. -/
theorem Module.step_set_ports (st : ModuleFields) (v : Json) (st' : ModuleFields) (hnone : st.ports = none)
    (h : Module.step st "ports" v = .ok st') :
    ∃ x, decodeStringMap Port.deserialize v = .ok x ∧ st'.ports = some x := by
  unfold Module.step at h
  rw [if_neg (by decide), if_pos rfl, hnone] at h
  obtain ⟨a, ha, h2⟩ := except_bind_ok h
  simp only [pure, Except.pure] at h2
  cases h2
  exact ⟨a, ha, rfl⟩

/-- An entry keyed `"cells"` fills the empty `cells` slot of the `Module`
visitor state with the decoded value. -/
theorem Module.step_set_cells (st : ModuleFields) (v : Json) (st' : ModuleFields) (hnone : st.cells = none)
    (h : Module.step st "cells" v = .ok st') :
    ∃ x, decodeStringMap Cell.deserialize v = .ok x ∧ st'.cells = some x := by
  unfold Module.step at h
  rw [if_neg (by decide), if_neg (by decide), if_pos rfl, hnone] at h
  obtain ⟨a, ha, h2⟩ := except_bind_ok h
  simp only [pure, Except.pure] at h2
  cases h2
  exact ⟨a, ha, rfl⟩

/-- An entry keyed `"memories"` fills the empty `memories` slot of the `Module`
visitor state with the decoded value. -/
theorem Module.step_set_memories (st : ModuleFields) (v : Json) (st' : ModuleFields) (hnone : st.memories = none)
    (h : Module.step st "memories" v = .ok st') :
    ∃ x, decodeStringMap Memory.deserialize v = .ok x ∧ st'.memories = some x := by
  unfold Module.step at h
  rw [if_neg (by decide), if_neg (by decide), if_neg (by decide), if_pos rfl, hnone] at h
  obtain ⟨a, ha, h2⟩ := except_bind_ok h
  simp only [pure, Except.pure] at h2
  cases h2
  exact ⟨a, ha, rfl⟩

/-- An entry keyed `"netnames"` fills the empty `nets` slot of the `Module`
visitor state with the decoded value. -/
theorem Module.step_set_nets (st : ModuleFields) (v : Json) (st' : ModuleFields) (hnone : st.nets = none)
    (h : Module.step st "netnames" v = .ok st') :
    ∃ x, decodeStringMap Net.deserialize v = .ok x ∧ st'.nets = some x := by
  unfold Module.step at h
  rw [if_neg (by decide), if_neg (by decide), if_neg (by decide), if_neg (by decide), if_pos rfl, hnone] at h
  obtain ⟨a, ha, h2⟩ := except_bind_ok h
  simp only [pure, Except.pure] at h2
  cases h2
  exact ⟨a, ha, rfl⟩

/-- An entry keyed `"modules"` fills the empty `modules` slot of the `Netlist`
visitor state with the decoded value. -/
theorem Netlist.step_set_modules (st : NetlistFields) (v : Json) (st' : NetlistFields) (hnone : st.modules = none)
    (h : Netlist.step st "modules" v = .ok st') :
    ∃ x, decodeStringMap Module.deserialize v = .ok x ∧ st'.modules = some x := by
  unfold Netlist.step at h
  rw [if_neg (by decide), if_pos rfl, hnone] at h
  obtain ⟨a, ha, h2⟩ := except_bind_ok h
  simp only [pure, Except.pure] at h2
  cases h2
  exact ⟨a, ha, rfl⟩

/-- Entries with a recognized `Module` key never touch the flatten buffer. -/
theorem Module.step_extra_known (st : ModuleFields) (k : String) (v : Json) (st' : ModuleFields)
    (h : Module.step st k v = .ok st') (hk : knownModuleKey k = true) : st'.extra = st.extra := by
  unfold Module.step at h
  split_ifs at h with h1 h2 h3 h4 h5
  · split at h
    · cases h
    · obtain ⟨a, ha, h2⟩ := except_bind_ok h
      simp only [pure, Except.pure] at h2
      cases h2
      rfl
  · split at h
    · cases h
    · obtain ⟨a, ha, h2⟩ := except_bind_ok h
      simp only [pure, Except.pure] at h2
      cases h2
      rfl
  · split at h
    · cases h
    · obtain ⟨a, ha, h2⟩ := except_bind_ok h
      simp only [pure, Except.pure] at h2
      cases h2
      rfl
  · split at h
    · cases h
    · obtain ⟨a, ha, h2⟩ := except_bind_ok h
      simp only [pure, Except.pure] at h2
      cases h2
      rfl
  · split at h
    · cases h
    · obtain ⟨a, ha, h2⟩ := except_bind_ok h
      simp only [pure, Except.pure] at h2
      cases h2
      rfl
  · simp [knownModuleKey, h1, h2, h3, h4, h5] at hk

/-- An entry with an unrecognized `Module` key is inserted into the flatten
buffer, in encounter order. -/
theorem Module.step_extra_unknown (st : ModuleFields) (k : String) (v : Json) (st' : ModuleFields)
    (h : Module.step st k v = .ok st') (hk : knownModuleKey k = false) :
    st'.extra = imInsert st.extra k v := by
  simp only [knownModuleKey, Bool.or_eq_false_iff, beq_eq_false_iff_ne, ne_eq] at hk
  unfold Module.step at h
  rw [if_neg hk.1.1.1.1, if_neg hk.1.1.1.2, if_neg hk.1.1.2, if_neg hk.1.2, if_neg hk.2] at h
  cases h
  rfl

/-- Entries with a recognized `Netlist` key never touch the flatten buffer. -/
theorem Netlist.step_extra_known_netlist (st : NetlistFields) (k : String) (v : Json) (st' : NetlistFields)
    (h : Netlist.step st k v = .ok st') (hk : knownNetlistKey k = true) : st'.extra = st.extra := by
  unfold Netlist.step at h
  split_ifs at h with h1 h2
  · split at h
    · cases h
    · obtain ⟨a, ha, h2⟩ := except_bind_ok h
      simp only [pure, Except.pure] at h2
      cases h2
      rfl
  · split at h
    · cases h
    · obtain ⟨a, ha, h2⟩ := except_bind_ok h
      simp only [pure, Except.pure] at h2
      cases h2
      rfl
  · simp [knownNetlistKey, h1, h2] at hk

/-- An entry with an unrecognized `Netlist` key is inserted into the flatten
buffer, in encounter order. -/
theorem Netlist.step_extra_unknown_netlist (st : NetlistFields) (k : String) (v : Json) (st' : NetlistFields)
    (h : Netlist.step st k v = .ok st') (hk : knownNetlistKey k = false) :
    st'.extra = imInsert st.extra k v := by
  simp only [knownNetlistKey, Bool.or_eq_false_iff, beq_eq_false_iff_ne, ne_eq] at hk
  unfold Netlist.step at h
  rw [if_neg hk.1, if_neg hk.2] at h
  cases h
  rfl

theorem Module.finish_ok (st : ModuleFields) (m : Module) (h : Module.finish st = .ok m) :
    m = { attributes := st.attributes.getD [], ports := st.ports.getD [],
          cells := st.cells.getD [], memories := st.memories.getD [],
          nets := st.nets.getD [], extra := st.extra } := by
  unfold Module.finish at h
  cases h
  rfl

theorem Netlist.finish_ok_netlist (st : NetlistFields) (n : Netlist) (h : Netlist.finish st = .ok n) :
    st.creator = some n.creator ∧ st.modules = some n.modules ∧ n.extra = st.extra := by
  unfold Netlist.finish at h
  cases hc : st.creator with
  | none => rw [hc] at h; simp [Bind.bind, Except.bind] at h
  | some c =>
    rw [hc] at h
    cases hm : st.modules with
    | none => rw [hm] at h; simp [Bind.bind, Except.bind, pure, Except.pure] at h
    | some m =>
      rw [hm] at h
      simp only [Bind.bind, Except.bind, pure, Except.pure] at h
      cases h
      exact ⟨rfl, rfl, rfl⟩

theorem Cell.finish_no_module (st : CellFields) (h : st.module = none) (c : Cell) :
    Cell.finish st ≠ .ok c := by
  intro hc
  unfold Cell.finish at hc
  rw [h] at hc
  simp [Bind.bind, Except.bind] at hc

theorem Memory.finish_no_width (st : MemoryFields) (h : st.width = none) (m : Memory) :
    Memory.finish st ≠ .ok m := by
  intro hm
  unfold Memory.finish at hm
  rw [h] at hm
  simp [Bind.bind, Except.bind] at hm

theorem Memory.finish_no_size (st : MemoryFields) (h : st.size = none) (m : Memory) :
    Memory.finish st ≠ .ok m := by
  intro hm
  unfold Memory.finish at hm
  cases hw : st.width with
  | none => rw [hw] at hm; simp [Bind.bind, Except.bind] at hm
  | some w => rw [hw, h] at hm; simp [Bind.bind, Except.bind, pure, Except.pure] at hm

theorem Port.finish_no_direction (st : PortFields) (h : st.direction = none) (p : Port) :
    Port.finish st ≠ .ok p := by
  intro hp
  unfold Port.finish at hp
  rw [h] at hp
  simp [Bind.bind, Except.bind] at hp

theorem Port.finish_no_bits (st : PortFields) (h : st.bits = none) (p : Port) :
    Port.finish st ≠ .ok p := by
  intro hp
  unfold Port.finish at hp
  cases hd : st.direction with
  | none => rw [hd] at hp; simp [Bind.bind, Except.bind] at hp
  | some d => rw [hd, h] at hp; simp [Bind.bind, Except.bind, pure, Except.pure] at hp

/-- Entries with a recognized `Port` key never touch the flatten buffer. -/
theorem Port.step_extra_known_port (st : PortFields) (k : String) (v : Json) (st' : PortFields)
    (h : Port.step st k v = .ok st') (hk : knownPortKey k = true) : st'.extra = st.extra := by
  unfold Port.step at h
  split_ifs at h with h1 h2 h3 h4 h5
  · split at h
    · cases h
    · obtain ⟨a, ha, h2⟩ := except_bind_ok h
      simp only [pure, Except.pure] at h2
      cases h2
      rfl
  · split at h
    · cases h
    · obtain ⟨a, ha, h2⟩ := except_bind_ok h
      simp only [pure, Except.pure] at h2
      cases h2
      rfl
  · split at h
    · cases h
    · obtain ⟨a, ha, h2⟩ := except_bind_ok h
      simp only [pure, Except.pure] at h2
      cases h2
      rfl
  · split at h
    · cases h
    · obtain ⟨a, ha, h2⟩ := except_bind_ok h
      simp only [pure, Except.pure] at h2
      cases h2
      rfl
  · split at h
    · cases h
    · obtain ⟨a, ha, h2⟩ := except_bind_ok h
      simp only [pure, Except.pure] at h2
      cases h2
      rfl
  · simp [knownPortKey, h1, h2, h3, h4, h5] at hk

/-- An entry with an unrecognized `Port` key is inserted into the flatten
buffer, in encounter order. -/
theorem Port.step_extra_unknown_port (st : PortFields) (k : String) (v : Json) (st' : PortFields)
    (h : Port.step st k v = .ok st') (hk : knownPortKey k = false) :
    st'.extra = imInsert st.extra k v := by
  simp only [knownPortKey, Bool.or_eq_false_iff, beq_eq_false_iff_ne, ne_eq] at hk
  unfold Port.step at h
  rw [if_neg hk.1.1.1.1, if_neg hk.1.1.1.2, if_neg hk.1.1.2, if_neg hk.1.2, if_neg hk.2] at h
  cases h
  rfl

/-- Entries with a recognized `Cell` key never touch the flatten buffer. -/
theorem Cell.step_extra_known_cell (st : CellFields) (k : String) (v : Json) (st' : CellFields)
    (h : Cell.step st k v = .ok st') (hk : knownCellKey k = true) : st'.extra = st.extra := by
  unfold Cell.step at h
  split_ifs at h with h1 h2 h3 h4 h5 h6
  · split at h
    · cases h
    · obtain ⟨a, ha, h2⟩ := except_bind_ok h
      simp only [pure, Except.pure] at h2
      cases h2
      rfl
  · split at h
    · cases h
    · obtain ⟨a, ha, h2⟩ := except_bind_ok h
      simp only [pure, Except.pure] at h2
      cases h2
      rfl
  · split at h
    · cases h
    · obtain ⟨a, ha, h2⟩ := except_bind_ok h
      simp only [pure, Except.pure] at h2
      cases h2
      rfl
  · split at h
    · cases h
    · obtain ⟨a, ha, h2⟩ := except_bind_ok h
      simp only [pure, Except.pure] at h2
      cases h2
      rfl
  · split at h
    · cases h
    · obtain ⟨a, ha, h2⟩ := except_bind_ok h
      simp only [pure, Except.pure] at h2
      cases h2
      rfl
  · split at h
    · cases h
    · obtain ⟨a, ha, h2⟩ := except_bind_ok h
      simp only [pure, Except.pure] at h2
      cases h2
      rfl
  · simp [knownCellKey, h1, h2, h3, h4, h5, h6] at hk

/-- An entry with an unrecognized `Cell` key is inserted into the flatten
buffer, in encounter order. -/
theorem Cell.step_extra_unknown_cell (st : CellFields) (k : String) (v : Json) (st' : CellFields)
    (h : Cell.step st k v = .ok st') (hk : knownCellKey k = false) :
    st'.extra = imInsert st.extra k v := by
  simp only [knownCellKey, Bool.or_eq_false_iff, beq_eq_false_iff_ne, ne_eq] at hk
  unfold Cell.step at h
  rw [if_neg hk.1.1.1.1.1, if_neg hk.1.1.1.1.2, if_neg hk.1.1.1.2, if_neg hk.1.1.2, if_neg hk.1.2, if_neg hk.2] at h
  cases h
  rfl

/-- Entries with a recognized `Memory` key never touch the flatten buffer. -/
theorem Memory.step_extra_known_memory (st : MemoryFields) (k : String) (v : Json) (st' : MemoryFields)
    (h : Memory.step st k v = .ok st') (hk : knownMemoryKey k = true) : st'.extra = st.extra := by
  unfold Memory.step at h
  split_ifs at h with h1 h2 h3 h4 h5
  · split at h
    · cases h
    · obtain ⟨a, ha, h2⟩ := except_bind_ok h
      simp only [pure, Except.pure] at h2
      cases h2
      rfl
  · split at h
    · cases h
    · obtain ⟨a, ha, h2⟩ := except_bind_ok h
      simp only [pure, Except.pure] at h2
      cases h2
      rfl
  · split at h
    · cases h
    · obtain ⟨a, ha, h2⟩ := except_bind_ok h
      simp only [pure, Except.pure] at h2
      cases h2
      rfl
  · split at h
    · cases h
    · obtain ⟨a, ha, h2⟩ := except_bind_ok h
      simp only [pure, Except.pure] at h2
      cases h2
      rfl
  · split at h
    · cases h
    · obtain ⟨a, ha, h2⟩ := except_bind_ok h
      simp only [pure, Except.pure] at h2
      cases h2
      rfl
  · simp [knownMemoryKey, h1, h2, h3, h4, h5] at hk

/-- An entry with an unrecognized `Memory` key is inserted into the flatten
buffer, in encounter order. -/
theorem Memory.step_extra_unknown_memory (st : MemoryFields) (k : String) (v : Json) (st' : MemoryFields)
    (h : Memory.step st k v = .ok st') (hk : knownMemoryKey k = false) :
    st'.extra = imInsert st.extra k v := by
  simp only [knownMemoryKey, Bool.or_eq_false_iff, beq_eq_false_iff_ne, ne_eq] at hk
  unfold Memory.step at h
  rw [if_neg hk.1.1.1.1, if_neg hk.1.1.1.2, if_neg hk.1.1.2, if_neg hk.1.2, if_neg hk.2] at h
  cases h
  rfl

/-- Entries with a recognized `Net` key never touch the flatten buffer. -/
theorem Net.step_extra_known_net (st : NetFields) (k : String) (v : Json) (st' : NetFields)
    (h : Net.step st k v = .ok st') (hk : knownNetKey k = true) : st'.extra = st.extra := by
  unfold Net.step at h
  split_ifs at h with h1 h2 h3 h4 h5 h6
  · split at h
    · cases h
    · obtain ⟨a, ha, h2⟩ := except_bind_ok h
      simp only [pure, Except.pure] at h2
      cases h2
      rfl
  · split at h
    · cases h
    · obtain ⟨a, ha, h2⟩ := except_bind_ok h
      simp only [pure, Except.pure] at h2
      cases h2
      rfl
  · split at h
    · cases h
    · obtain ⟨a, ha, h2⟩ := except_bind_ok h
      simp only [pure, Except.pure] at h2
      cases h2
      rfl
  · split at h
    · cases h
    · obtain ⟨a, ha, h2⟩ := except_bind_ok h
      simp only [pure, Except.pure] at h2
      cases h2
      rfl
  · split at h
    · cases h
    · obtain ⟨a, ha, h2⟩ := except_bind_ok h
      simp only [pure, Except.pure] at h2
      cases h2
      rfl
  · split at h
    · cases h
    · obtain ⟨a, ha, h2⟩ := except_bind_ok h
      simp only [pure, Except.pure] at h2
      cases h2
      rfl
  · simp [knownNetKey, h1, h2, h3, h4, h5, h6] at hk

/-- An entry with an unrecognized `Net` key is inserted into the flatten
buffer, in encounter order. -/
theorem Net.step_extra_unknown_net (st : NetFields) (k : String) (v : Json) (st' : NetFields)
    (h : Net.step st k v = .ok st') (hk : knownNetKey k = false) :
    st'.extra = imInsert st.extra k v := by
  simp only [knownNetKey, Bool.or_eq_false_iff, beq_eq_false_iff_ne, ne_eq] at hk
  unfold Net.step at h
  rw [if_neg hk.1.1.1.1.1, if_neg hk.1.1.1.1.2, if_neg hk.1.1.1.2, if_neg hk.1.1.2, if_neg hk.1.2, if_neg hk.2] at h
  cases h
  rfl

/-- A successful `Port` finish keeps the collected flatten buffer. -/
theorem Port.finish_extra_port (st : PortFields) (p : Port) (h : Port.finish st = .ok p) :
    p.extra = st.extra := by
  unfold Port.finish at h
  cases hd : st.direction with
  | none => rw [hd] at h; simp [Bind.bind, Except.bind] at h
  | some d =>
    rw [hd] at h
    cases hb : st.bits with
    | none => rw [hb] at h; simp [Bind.bind, Except.bind, pure, Except.pure] at h
    | some b =>
      rw [hb] at h
      simp only [Bind.bind, Except.bind, pure, Except.pure] at h
      cases h
      rfl

/-- A successful `Cell` finish keeps the collected flatten buffer. -/
theorem Cell.finish_extra_cell (st : CellFields) (c : Cell) (h : Cell.finish st = .ok c) :
    c.extra = st.extra := by
  unfold Cell.finish at h
  cases hm : st.module with
  | none => rw [hm] at h; simp [Bind.bind, Except.bind] at h
  | some m =>
    rw [hm] at h
    simp only [Bind.bind, Except.bind, pure, Except.pure] at h
    cases h
    rfl

/-- A successful `Memory` finish keeps the collected flatten buffer. -/
theorem Memory.finish_extra_memory (st : MemoryFields) (m : Memory)
    (h : Memory.finish st = .ok m) : m.extra = st.extra := by
  unfold Memory.finish at h
  cases hw : st.width with
  | none => rw [hw] at h; simp [Bind.bind, Except.bind] at h
  | some w =>
    rw [hw] at h
    cases hs : st.size with
    | none => rw [hs] at h; simp [Bind.bind, Except.bind, pure, Except.pure] at h
    | some sz =>
      rw [hs] at h
      simp only [Bind.bind, Except.bind, pure, Except.pure] at h
      cases h
      rfl

/-- A successful `Net` finish keeps the collected flatten buffer. -/
theorem Net.finish_extra_net (st : NetFields) (n : Net) (h : Net.finish st = .ok n) :
    n.extra = st.extra := by
  unfold Net.finish at h
  cases hb : st.bits with
  | none => rw [hb] at h; simp [Bind.bind, Except.bind] at h
  | some b =>
    rw [hb] at h
    simp only [Bind.bind, Except.bind, pure, Except.pure] at h
    cases h
    rfl


/-- A `Cell` state with no decoded `"type"` finishes with exactly the
missing-field error for `"type"`. -/
theorem Cell.finish_missing_type (st : CellFields) (h : st.module = none) :
    Cell.finish st = .error (.missingField "type") := by
  unfold Cell.finish
  rw [h]
  rfl

/-- A `Memory` state with no decoded `"width"` finishes with exactly the
missing-field error for `"width"`. -/
theorem Memory.finish_missing_width (st : MemoryFields) (h : st.width = none) :
    Memory.finish st = .error (.missingField "width") := by
  unfold Memory.finish
  rw [h]
  rfl

/-- A `Memory` state with no decoded `"size"` finishes with a missing-field
error: for `"width"` if that is also absent (declaration order), else for
`"size"`. -/
theorem Memory.finish_missing_size (st : MemoryFields) (h : st.size = none) :
    Memory.finish st = .error (.missingField "width") ∨
    Memory.finish st = .error (.missingField "size") := by
  unfold Memory.finish
  cases hw : st.width with
  | none => left; rfl
  | some w => right; rw [h]; rfl

/-- A `Port` state with no decoded `"direction"` finishes with exactly the
missing-field error for `"direction"`. -/
theorem Port.finish_missing_direction (st : PortFields) (h : st.direction = none) :
    Port.finish st = .error (.missingField "direction") := by
  unfold Port.finish
  rw [h]
  rfl

/-- A `Port` state with no decoded `"bits"` finishes with a missing-field
error: for `"direction"` if that is also absent (declaration order), else
for `"bits"`. -/
theorem Port.finish_missing_bits (st : PortFields) (h : st.bits = none) :
    Port.finish st = .error (.missingField "direction") ∨
    Port.finish st = .error (.missingField "bits") := by
  unfold Port.finish
  cases hd : st.direction with
  | none => left; rfl
  | some d => right; rw [h]; rfl

/-- Decoding a Cell object with no `"type"` member never yields a value. -/
theorem Cell.no_type_not_ok (entries : List (String × Json))
    (hk : "type" ∉ entries.map Prod.fst) (c : Cell) :
    Cell.deserialize (.obj entries) ≠ .ok c := by
  intro hc
  simp only [Cell.deserialize] at hc
  obtain ⟨st', hfold, hfin⟩ := except_bind_ok hc
  have hnone : st'.module = none :=
    structFold_frozen Cell.step (fun st => st.module) "type" Cell.step_ne_module
      entries {} st' hfold hk
  exact absurd hfin (by rw [Cell.finish_missing_type st' hnone]; intro h; cases h)

/-- Decoding a Memory object with no `"width"` member never yields a value. -/
theorem Memory.no_width_not_ok (entries : List (String × Json))
    (hk : "width" ∉ entries.map Prod.fst) (m : Memory) :
    Memory.deserialize (.obj entries) ≠ .ok m := by
  intro hm
  simp only [Memory.deserialize] at hm
  obtain ⟨st', hfold, hfin⟩ := except_bind_ok hm
  have hnone : st'.width = none :=
    structFold_frozen Memory.step (fun st => st.width) "width" Memory.step_ne_width
      entries {} st' hfold hk
  exact Memory.finish_no_width st' hnone m hfin

/-- Decoding a Memory object with no `"size"` member never yields a value. -/
theorem Memory.no_size_not_ok (entries : List (String × Json))
    (hk : "size" ∉ entries.map Prod.fst) (m : Memory) :
    Memory.deserialize (.obj entries) ≠ .ok m := by
  intro hm
  simp only [Memory.deserialize] at hm
  obtain ⟨st', hfold, hfin⟩ := except_bind_ok hm
  have hnone : st'.size = none :=
    structFold_frozen Memory.step (fun st => st.size) "size" Memory.step_ne_size
      entries {} st' hfold hk
  exact Memory.finish_no_size st' hnone m hfin

/-- Decoding a Port object with no `"direction"` member never yields a
value. -/
theorem Port.no_direction_not_ok (entries : List (String × Json))
    (hk : "direction" ∉ entries.map Prod.fst) (p : Port) :
    Port.deserialize (.obj entries) ≠ .ok p := by
  intro hp
  simp only [Port.deserialize] at hp
  obtain ⟨st', hfold, hfin⟩ := except_bind_ok hp
  have hnone : st'.direction = none :=
    structFold_frozen Port.step (fun st => st.direction) "direction" Port.step_ne_direction
      entries {} st' hfold hk
  exact Port.finish_no_direction st' hnone p hfin

/-- Decoding a Port object with no `"bits"` member never yields a value. -/
theorem Port.no_bits_not_ok (entries : List (String × Json))
    (hk : "bits" ∉ entries.map Prod.fst) (p : Port) :
    Port.deserialize (.obj entries) ≠ .ok p := by
  intro hp
  simp only [Port.deserialize] at hp
  obtain ⟨st', hfold, hfin⟩ := except_bind_ok hp
  have hnone : st'.bits = none :=
    structFold_frozen Port.step (fun st => st.bits) "bits" Port.step_ne_bits
      entries {} st' hfold hk
  exact Port.finish_no_bits st' hnone p hfin

/-- C7: decoding fails as a whole — with an error value, never a partial
result — whenever a schema-required field is absent: a Cell object without
"type", a Memory object without "width" or "size", a Port object without
"direction" or "bits"; and whenever the entity's member loop itself succeeds
(every present member well-formed), the error is exactly the
missing-required-field error of the first absent required field in
declaration order, verified concretely on the minimal such objects. -/
theorem C7_required_field_errors :
    (∀ (entries : List (String × Json)) (c : Cell),
       "type" ∉ entries.map Prod.fst → Cell.deserialize (.obj entries) ≠ .ok c) ∧
    (∀ (entries : List (String × Json)) (m : Memory),
       "width" ∉ entries.map Prod.fst → Memory.deserialize (.obj entries) ≠ .ok m) ∧
    (∀ (entries : List (String × Json)) (m : Memory),
       "size" ∉ entries.map Prod.fst → Memory.deserialize (.obj entries) ≠ .ok m) ∧
    (∀ (entries : List (String × Json)) (p : Port),
       "direction" ∉ entries.map Prod.fst → Port.deserialize (.obj entries) ≠ .ok p) ∧
    (∀ (entries : List (String × Json)) (p : Port),
       "bits" ∉ entries.map Prod.fst → Port.deserialize (.obj entries) ≠ .ok p) ∧
    Cell.deserialize (.obj []) = .error (.missingField "type") ∧
    Memory.deserialize (.obj []) = .error (.missingField "width") ∧
    Memory.deserialize (.obj [("width", .num (.uint 8))]) = .error (.missingField "size") ∧
    Port.deserialize (.obj []) = .error (.missingField "direction") ∧
    Port.deserialize (.obj [("direction", .str "input")]) = .error (.missingField "bits") ∧
    (∀ entries : List (String × Json), "type" ∉ entries.map Prod.fst →
       ∃ e, Cell.deserialize (.obj entries) = .error e) ∧
    (∀ entries : List (String × Json), "width" ∉ entries.map Prod.fst →
       ∃ e, Memory.deserialize (.obj entries) = .error e) ∧
    (∀ entries : List (String × Json), "size" ∉ entries.map Prod.fst →
       ∃ e, Memory.deserialize (.obj entries) = .error e) ∧
    (∀ entries : List (String × Json), "direction" ∉ entries.map Prod.fst →
       ∃ e, Port.deserialize (.obj entries) = .error e) ∧
    (∀ entries : List (String × Json), "bits" ∉ entries.map Prod.fst →
       ∃ e, Port.deserialize (.obj entries) = .error e) ∧
    (∀ (entries : List (String × Json)) (st : CellFields),
       structFold Cell.step entries {} = .ok st →
       "type" ∉ entries.map Prod.fst →
       Cell.deserialize (.obj entries) = .error (.missingField "type")) ∧
    (∀ (entries : List (String × Json)) (st : MemoryFields),
       structFold Memory.step entries {} = .ok st →
       "width" ∉ entries.map Prod.fst →
       Memory.deserialize (.obj entries) = .error (.missingField "width")) ∧
    (∀ (entries : List (String × Json)) (st : MemoryFields),
       structFold Memory.step entries {} = .ok st →
       "size" ∉ entries.map Prod.fst →
       Memory.deserialize (.obj entries) = .error (.missingField "width") ∨
       Memory.deserialize (.obj entries) = .error (.missingField "size")) ∧
    (∀ (entries : List (String × Json)) (st : PortFields),
       structFold Port.step entries {} = .ok st →
       "direction" ∉ entries.map Prod.fst →
       Port.deserialize (.obj entries) = .error (.missingField "direction")) ∧
    (∀ (entries : List (String × Json)) (st : PortFields),
       structFold Port.step entries {} = .ok st →
       "bits" ∉ entries.map Prod.fst →
       Port.deserialize (.obj entries) = .error (.missingField "direction") ∨
       Port.deserialize (.obj entries) = .error (.missingField "bits")) := by
  refine ⟨fun entries c hk => Cell.no_type_not_ok entries hk c,
    fun entries m hk => Memory.no_width_not_ok entries hk m,
    fun entries m hk => Memory.no_size_not_ok entries hk m,
    fun entries p hk => Port.no_direction_not_ok entries hk p,
    fun entries p hk => Port.no_bits_not_ok entries hk p,
    rfl, rfl, rfl, rfl, rfl, ?_, ?_, ?_, ?_, ?_, ?_, ?_, ?_, ?_, ?_⟩
  · intro entries hk
    cases hres : Cell.deserialize (.obj entries) with
    | error e => exact ⟨e, rfl⟩
    | ok c => exact absurd hres (Cell.no_type_not_ok entries hk c)
  · intro entries hk
    cases hres : Memory.deserialize (.obj entries) with
    | error e => exact ⟨e, rfl⟩
    | ok m => exact absurd hres (Memory.no_width_not_ok entries hk m)
  · intro entries hk
    cases hres : Memory.deserialize (.obj entries) with
    | error e => exact ⟨e, rfl⟩
    | ok m => exact absurd hres (Memory.no_size_not_ok entries hk m)
  · intro entries hk
    cases hres : Port.deserialize (.obj entries) with
    | error e => exact ⟨e, rfl⟩
    | ok p => exact absurd hres (Port.no_direction_not_ok entries hk p)
  · intro entries hk
    cases hres : Port.deserialize (.obj entries) with
    | error e => exact ⟨e, rfl⟩
    | ok p => exact absurd hres (Port.no_bits_not_ok entries hk p)
  · intro entries st hfold hk
    have hnone : st.module = none :=
      structFold_frozen Cell.step (fun s => s.module) "type" Cell.step_ne_module
        entries {} st hfold hk
    have hdec : Cell.deserialize (.obj entries) = Cell.finish st := by
      simp only [Cell.deserialize]
      rw [hfold]
      rfl
    rw [hdec]
    exact Cell.finish_missing_type st hnone
  · intro entries st hfold hk
    have hnone : st.width = none :=
      structFold_frozen Memory.step (fun s => s.width) "width" Memory.step_ne_width
        entries {} st hfold hk
    have hdec : Memory.deserialize (.obj entries) = Memory.finish st := by
      simp only [Memory.deserialize]
      rw [hfold]
      rfl
    rw [hdec]
    exact Memory.finish_missing_width st hnone
  · intro entries st hfold hk
    have hnone : st.size = none :=
      structFold_frozen Memory.step (fun s => s.size) "size" Memory.step_ne_size
        entries {} st hfold hk
    have hdec : Memory.deserialize (.obj entries) = Memory.finish st := by
      simp only [Memory.deserialize]
      rw [hfold]
      rfl
    rw [hdec]
    exact Memory.finish_missing_size st hnone
  · intro entries st hfold hk
    have hnone : st.direction = none :=
      structFold_frozen Port.step (fun s => s.direction) "direction" Port.step_ne_direction
        entries {} st hfold hk
    have hdec : Port.deserialize (.obj entries) = Port.finish st := by
      simp only [Port.deserialize]
      rw [hfold]
      rfl
    rw [hdec]
    exact Port.finish_missing_direction st hnone
  · intro entries st hfold hk
    have hnone : st.bits = none :=
      structFold_frozen Port.step (fun s => s.bits) "bits" Port.step_ne_bits
        entries {} st hfold hk
    have hdec : Port.deserialize (.obj entries) = Port.finish st := by
      simp only [Port.deserialize]
      rw [hfold]
      rfl
    rw [hdec]
    exact Port.finish_missing_bits st hnone

/-- C7 witness: concrete applications of the universally quantified parts,
with every hypothesis discharged at an explicit input. -/
theorem C7_witness :
    Cell.deserialize (.obj [("attributes", .obj [])]) ≠ .ok sampleCell ∧
    Memory.deserialize (.obj [("size", .num (.uint 4))]) ≠ .ok sampleMemory ∧
    Memory.deserialize (.obj [("width", .num (.uint 8))]) ≠ .ok sampleMemory ∧
    Port.deserialize (.obj [("bits", .arr [])]) ≠ .ok samplePort ∧
    Port.deserialize (.obj [("direction", .str "input")]) ≠ .ok samplePort ∧
    Cell.deserialize (.obj [("attributes", .obj [])]) = .error (.missingField "type") ∧
    Port.deserialize (.obj [("offset", .num (.uint 2))]) =
      .error (.missingField "direction") := by
  obtain ⟨h1, h2, h3, h4, h5, -, -, -, -, -, -, -, -, -, -, h16, -, -, h19, -⟩ :=
    C7_required_field_errors
  exact ⟨h1 _ sampleCell (by decide), h2 _ sampleMemory (by decide),
    h3 _ sampleMemory (by decide), h4 _ samplePort (by decide),
    h5 _ samplePort (by decide),
    h16 [("attributes", .obj [])] _ rfl (by decide),
    h19 [("offset", .num (.uint 2))] _ rfl (by decide)⟩

/-- C8: a module object with neither a "ports" nor a "netnames" member
decodes successfully, with both mappings defaulting to empty; in general any
successfully decoded module without those keys has empty ports and nets. -/
theorem C8_optional_collection_defaults :
    Module.deserialize (.obj []) = .ok emptyModule ∧
    Netlist.deserialize
        (.obj [("creator", .str "t"), ("modules", .obj [("m", .obj [("cells", .obj [])])])]) =
      .ok { creator := "t", modules := [("m", emptyModule)], extra := [] } ∧
    (∀ (entries : List (String × Json)) (m : Module),
       Module.deserialize (.obj entries) = .ok m →
       "ports" ∉ entries.map Prod.fst →
       "netnames" ∉ entries.map Prod.fst →
       m.ports = [] ∧ m.nets = []) := by
  refine ⟨rfl, rfl, ?_⟩
  intro entries m hdec hp hn
  simp only [Module.deserialize] at hdec
  obtain ⟨st', hfold, hfin⟩ := except_bind_ok hdec
  have hpn : st'.ports = none :=
    structFold_frozen Module.step (fun st => st.ports) "ports" Module.step_ne_ports
      entries {} st' hfold hp
  have hnn : st'.nets = none :=
    structFold_frozen Module.step (fun st => st.nets) "netnames" Module.step_ne_nets
      entries {} st' hfold hn
  rw [Module.finish_ok st' m hfin]
  simp [hpn, hnn]

/-- C8 witness: the universally quantified part applied at a concrete module
object that has a "cells" member but no "ports"/"netnames" members. -/
theorem C8_witness :
    ({ attributes := [], ports := [], cells := [("c", sampleCell)], memories := [],
       nets := [], extra := [] } : Module).ports = [] ∧
    ({ attributes := [], ports := [], cells := [("c", sampleCell)], memories := [],
       nets := [], extra := [] } : Module).nets = [] := by
  exact C8_optional_collection_defaults.2.2
    [("cells", .obj [("c", .obj [("type", .str "m")])])]
    { attributes := [], ports := [], cells := [("c", sampleCell)], memories := [],
      nets := [], extra := [] }
    rfl (by decide) (by decide)

/-- C5: an object member with an unrecognized key decodes into the
passthrough map and is re-emitted unchanged after the recognized keys; in
particular the document with top-level `"foo": 1` round-trips with `foo`
after `creator` and `modules`. -/
theorem C5_unknown_field_passthrough :
    (Netlist.deserialize C5doc = .ok C5netlist ∧
     Netlist.serialize C5netlist =
       .obj [("creator", .str "t"), ("modules", .obj []), ("foo", .num (.uint 1))]) ∧
    (∀ (entries : List (String × Json)) (k : String) (v : Json) (n : Netlist),
       Netlist.deserialize (.obj entries) = .ok n →
       (entries.map Prod.fst).Nodup →
       (k, v) ∈ entries →
       knownNetlistKey k = false →
       Netlist.serialize n =
         .obj ([("creator", .str n.creator),
                ("modules", encodeStringMap Module.serialize n.modules)] ++ n.extra) ∧
       (k, v) ∈ n.extra) := by
  refine ⟨⟨rfl, rfl⟩, ?_⟩
  intro entries k v n hdec hnd hmem hk
  simp only [Netlist.deserialize] at hdec
  obtain ⟨st', hfold, hfin⟩ := except_bind_ok hdec
  obtain ⟨-, -, hextra⟩ := Netlist.finish_ok_netlist st' n hfin
  have hex : st'.extra = entries.filter (fun kv => !(knownNetlistKey kv.1)) := by
    simpa using structFold_extra Netlist.step (fun st => st.extra) knownNetlistKey
      Netlist.step_extra_known_netlist Netlist.step_extra_unknown_netlist entries {} st' hfold
      (by simpa using hnd)
  refine ⟨rfl, ?_⟩
  rw [hextra, hex]
  exact List.mem_filter.mpr ⟨hmem, by simp [hk]⟩

/-- C5 witness: the universally quantified part applied to the concrete
document `C5doc` and its unknown member `("foo", 1)`. -/
theorem C5_witness :
    Netlist.serialize C5netlist =
      .obj ([("creator", .str C5netlist.creator),
             ("modules", encodeStringMap Module.serialize C5netlist.modules)]
            ++ C5netlist.extra) ∧
    ("foo", Json.num (.uint 1)) ∈ C5netlist.extra := by
  exact C5_unknown_field_passthrough.2
    [("creator", .str "t"), ("modules", .obj []), ("foo", .num (.uint 1))]
    "foo" (.num (.uint 1)) C5netlist rfl (by decide)
    (List.mem_cons_of_mem _ (List.mem_cons_of_mem _ (List.mem_cons_self _ _))) rfl

/-- C6: decode-then-encode is order-stable: for a successfully decoded
document with duplicate-free object keys, the key order of the modules
mapping, of each module's ports/cells/memories/netnames mappings, and of the
passthrough members at every entity level (netlist, module, port, cell,
memory, net) is exactly the key order of the input, and the encoder emits
stored mappings and passthrough entries in stored order, passthrough after
the recognized fields. -/
theorem C6_order_stability :
    (∀ (entries : List (String × Json)) (n : Netlist),
       Netlist.deserialize (.obj entries) = .ok n →
       (entries.map Prod.fst).Nodup →
       (Netlist.serialize n =
          .obj ([("creator", .str n.creator),
                 ("modules", .obj (n.modules.map (fun kv => (kv.1, Module.serialize kv.2))))]
                ++ n.extra)) ∧
       (∀ ms, ("modules", Json.obj ms) ∈ entries → (ms.map Prod.fst).Nodup →
          n.modules.map Prod.fst = ms.map Prod.fst) ∧
       n.extra = entries.filter (fun kv => !(knownNetlistKey kv.1))) ∧
    (∀ (entries : List (String × Json)) (m : Module),
       Module.deserialize (.obj entries) = .ok m →
       (entries.map Prod.fst).Nodup →
       (Module.serialize m =
          .obj ([("attributes", .obj m.attributes),
                 ("ports", .obj (m.ports.map (fun kv => (kv.1, Port.serialize kv.2)))),
                 ("cells", .obj (m.cells.map (fun kv => (kv.1, Cell.serialize kv.2)))),
                 ("memories", .obj (m.memories.map (fun kv => (kv.1, Memory.serialize kv.2)))),
                 ("netnames", .obj (m.nets.map (fun kv => (kv.1, Net.serialize kv.2))))]
                ++ m.extra)) ∧
       (∀ ps, ("ports", Json.obj ps) ∈ entries → (ps.map Prod.fst).Nodup →
          m.ports.map Prod.fst = ps.map Prod.fst) ∧
       (∀ cs, ("cells", Json.obj cs) ∈ entries → (cs.map Prod.fst).Nodup →
          m.cells.map Prod.fst = cs.map Prod.fst) ∧
       (∀ mems, ("memories", Json.obj mems) ∈ entries → (mems.map Prod.fst).Nodup →
          m.memories.map Prod.fst = mems.map Prod.fst) ∧
       (∀ ns, ("netnames", Json.obj ns) ∈ entries → (ns.map Prod.fst).Nodup →
          m.nets.map Prod.fst = ns.map Prod.fst) ∧
       m.extra = entries.filter (fun kv => !(knownModuleKey kv.1))) ∧
    (∀ (entries : List (String × Json)) (p : Port),
       Port.deserialize (.obj entries) = .ok p →
       (entries.map Prod.fst).Nodup →
       (Port.serialize p =
          .obj ([("direction", Direction.serialize p.direction),
                 ("bits", .arr (p.bits.map Bit.serialize)),
                 ("offset", .num (.uint p.offset)),
                 ("upto", .num (.uint p.upto)),
                 ("signed", serialize_bool_u64 p.signed)] ++ p.extra)) ∧
       p.extra = entries.filter (fun kv => !(knownPortKey kv.1))) ∧
    (∀ (entries : List (String × Json)) (c : Cell),
       Cell.deserialize (.obj entries) = .ok c →
       (entries.map Prod.fst).Nodup →
       (Cell.serialize c =
          .obj ([("hide_name", serialize_bool_u64 c.hide_name),
                 ("type", .str c.module),
                 ("attributes", .obj c.attributes),
                 ("parameters", .obj c.parameters),
                 ("port_directions", encodeStringMap Direction.serialize c.port_directions),
                 ("connections",
                  encodeStringMap (fun bs => .arr (bs.map Bit.serialize)) c.connections)]
                ++ c.extra)) ∧
       c.extra = entries.filter (fun kv => !(knownCellKey kv.1))) ∧
    (∀ (entries : List (String × Json)) (mem : Memory),
       Memory.deserialize (.obj entries) = .ok mem →
       (entries.map Prod.fst).Nodup →
       (Memory.serialize mem =
          .obj ([("hide_name", serialize_bool_u64 mem.hide_name),
                 ("attributes", .obj mem.attributes),
                 ("width", .num (.uint mem.width)),
                 ("size", .num (.uint mem.size)),
                 ("start_offset", .num (.uint mem.start_offset))] ++ mem.extra)) ∧
       mem.extra = entries.filter (fun kv => !(knownMemoryKey kv.1))) ∧
    (∀ (entries : List (String × Json)) (nt : Net),
       Net.deserialize (.obj entries) = .ok nt →
       (entries.map Prod.fst).Nodup →
       (Net.serialize nt =
          .obj ([("hide_name", serialize_bool_u64 nt.hide_name),
                 ("attributes", .obj nt.attributes),
                 ("bits", .arr (nt.bits.map Bit.serialize)),
                 ("offset", .num (.uint nt.offset)),
                 ("upto", .num (.uint nt.upto)),
                 ("signed", serialize_bool_u64 nt.signed)] ++ nt.extra)) ∧
       nt.extra = entries.filter (fun kv => !(knownNetKey kv.1))) := by
  refine ⟨?_, ?_, ?_, ?_, ?_, ?_⟩
  · intro entries n hdec hnd
    simp only [Netlist.deserialize] at hdec
    obtain ⟨st', hfold, hfin⟩ := except_bind_ok hdec
    obtain ⟨hc, hm, hextra⟩ := Netlist.finish_ok_netlist st' n hfin
    refine ⟨rfl, ?_, ?_⟩
    · intro ms hmem hmnd
      obtain ⟨x, hx, hsome⟩ := structFold_set Netlist.step (fun st => st.modules) "modules"
        (decodeStringMap Module.deserialize) Netlist.step_ne_modules Netlist.step_set_modules
        entries {} st' (Json.obj ms) hfold hmem hnd rfl
      have hxn : x = n.modules := by rw [hsome] at hm; exact (Option.some.injEq _ _ ▸ hm :)
      rw [← hxn]
      exact decodeStringMap_keys Module.deserialize ms x hmnd hx
    · rw [hextra]
      simpa using structFold_extra Netlist.step (fun st => st.extra) knownNetlistKey
        Netlist.step_extra_known_netlist Netlist.step_extra_unknown_netlist entries {} st' hfold
        (by simpa using hnd)
  · intro entries m hdec hnd
    simp only [Module.deserialize] at hdec
    obtain ⟨st', hfold, hfin⟩ := except_bind_ok hdec
    have hm := Module.finish_ok st' m hfin
    refine ⟨rfl, ?_, ?_, ?_, ?_, ?_⟩
    · intro ps hmem hpnd
      obtain ⟨x, hx, hsome⟩ := structFold_set Module.step (fun st => st.ports) "ports"
        (decodeStringMap Port.deserialize) Module.step_ne_ports Module.step_set_ports
        entries {} st' (Json.obj ps) hfold hmem hnd rfl
      have : m.ports = x := by rw [hm]; simp [hsome]
      rw [this]
      exact decodeStringMap_keys Port.deserialize ps x hpnd hx
    · intro cs hmem hcnd
      obtain ⟨x, hx, hsome⟩ := structFold_set Module.step (fun st => st.cells) "cells"
        (decodeStringMap Cell.deserialize) Module.step_ne_cells Module.step_set_cells
        entries {} st' (Json.obj cs) hfold hmem hnd rfl
      have : m.cells = x := by rw [hm]; simp [hsome]
      rw [this]
      exact decodeStringMap_keys Cell.deserialize cs x hcnd hx
    · intro mems hmem hmnd
      obtain ⟨x, hx, hsome⟩ := structFold_set Module.step (fun st => st.memories) "memories"
        (decodeStringMap Memory.deserialize) Module.step_ne_memories Module.step_set_memories
        entries {} st' (Json.obj mems) hfold hmem hnd rfl
      have : m.memories = x := by rw [hm]; simp [hsome]
      rw [this]
      exact decodeStringMap_keys Memory.deserialize mems x hmnd hx
    · intro ns hmem hnnd
      obtain ⟨x, hx, hsome⟩ := structFold_set Module.step (fun st => st.nets) "netnames"
        (decodeStringMap Net.deserialize) Module.step_ne_nets Module.step_set_nets
        entries {} st' (Json.obj ns) hfold hmem hnd rfl
      have : m.nets = x := by rw [hm]; simp [hsome]
      rw [this]
      exact decodeStringMap_keys Net.deserialize ns x hnnd hx
    · rw [hm]
      simpa using structFold_extra Module.step (fun st => st.extra) knownModuleKey
        Module.step_extra_known Module.step_extra_unknown entries {} st' hfold
        (by simpa using hnd)
  · intro entries p hdec hnd
    simp only [Port.deserialize] at hdec
    obtain ⟨st', hfold, hfin⟩ := except_bind_ok hdec
    refine ⟨rfl, ?_⟩
    rw [Port.finish_extra_port st' p hfin]
    simpa using structFold_extra Port.step (fun st => st.extra) knownPortKey
      Port.step_extra_known_port Port.step_extra_unknown_port entries {} st' hfold
      (by simpa using hnd)
  · intro entries c hdec hnd
    simp only [Cell.deserialize] at hdec
    obtain ⟨st', hfold, hfin⟩ := except_bind_ok hdec
    refine ⟨rfl, ?_⟩
    rw [Cell.finish_extra_cell st' c hfin]
    simpa using structFold_extra Cell.step (fun st => st.extra) knownCellKey
      Cell.step_extra_known_cell Cell.step_extra_unknown_cell entries {} st' hfold
      (by simpa using hnd)
  · intro entries mem hdec hnd
    simp only [Memory.deserialize] at hdec
    obtain ⟨st', hfold, hfin⟩ := except_bind_ok hdec
    refine ⟨rfl, ?_⟩
    rw [Memory.finish_extra_memory st' mem hfin]
    simpa using structFold_extra Memory.step (fun st => st.extra) knownMemoryKey
      Memory.step_extra_known_memory Memory.step_extra_unknown_memory entries {} st' hfold
      (by simpa using hnd)
  · intro entries nt hdec hnd
    simp only [Net.deserialize] at hdec
    obtain ⟨st', hfold, hfin⟩ := except_bind_ok hdec
    refine ⟨rfl, ?_⟩
    rw [Net.finish_extra_net st' nt hfin]
    simpa using structFold_extra Net.step (fun st => st.extra) knownNetKey
      Net.step_extra_known_net Net.step_extra_unknown_net entries {} st' hfold
      (by simpa using hnd)

/-- C6 witness: the netlist-level part applied at a concrete two-module
document with an unknown trailing member, and the port-level part applied at
a concrete port object with an unknown trailing member, all hypotheses
discharged. -/
theorem C6_witness :
    C6netlist.modules.map Prod.fst = ["b", "a"] ∧
    C6netlist.extra = [("foo", Json.null)] ∧
    barPort.extra =
      [("direction", Json.str "input"), ("bits", Json.arr []),
       ("bar", Json.null)].filter (fun kv => !(knownPortKey kv.1)) := by
  obtain ⟨hnet, -, hport, -⟩ := C6_order_stability
  obtain ⟨-, hkeys, hextra⟩ := hnet
    [("creator", .str "t"), ("modules", .obj [("b", .obj []), ("a", .obj [])]),
     ("foo", Json.null)]
    C6netlist rfl (by decide)
  refine ⟨?_, ?_, ?_⟩
  · exact hkeys [("b", .obj []), ("a", .obj [])]
      (List.mem_cons_of_mem _ (List.mem_cons_self _ _)) (by decide)
  · rw [hextra]; rfl
  · exact (hport
      [("direction", .str "input"), ("bits", .arr []), ("bar", Json.null)]
      barPort rfl (by decide)).2

/-- C1: the Bit codec round-trips in both directions: decoding the encoding
of any Bit yields that Bit, and encoding the decoding of any syntactically
valid wire value (a non-negative integer or one of "0", "1", "z", "x")
reproduces that wire value exactly, with no normalization. -/
theorem C1_bit_roundtrip :
    (∀ b : Bit, Bit.deserialize (Bit.serialize b) = .ok b) ∧
    (∀ n : Nat, Except.map Bit.serialize (Bit.deserialize (.num (.uint n))) =
       .ok (.num (.uint n))) ∧
    Except.map Bit.serialize (Bit.deserialize (.str "0")) = .ok (.str "0") ∧
    Except.map Bit.serialize (Bit.deserialize (.str "1")) = .ok (.str "1") ∧
    Except.map Bit.serialize (Bit.deserialize (.str "z")) = .ok (.str "z") ∧
    Except.map Bit.serialize (Bit.deserialize (.str "x")) = .ok (.str "x") := by
  refine ⟨?_, fun n => rfl, rfl, rfl, rfl, rfl⟩
  intro b
  cases b <;> rfl

/-- C2 counterexample: a negative JSON integer is an integer, yet
`deserialize_u64_bool` does not return `Ok(false)` on it — `Boolu64Visitor`
implements only `visit_u64`, so serde's default `visit_i64` rejects the value
with an invalid-type error. -/
theorem C2_counterexample :
    deserialize_u64_bool (.num (.nint (-1))) =
      .error (.invalidType (.sintVal (-1)) boolExpecting) ∧
    deserialize_u64_bool (.num (.nint (-1))) ≠ .ok false ∧
    deserialize_u64_bool (.num (.nint (-1))) ≠ .ok true := by
  refine ⟨rfl, fun h => ?_, fun h => ?_⟩ <;> cases h

/-- C2 amended: for every non-negative JSON integer (the only integers that
reach `visit_u64`), `deserialize_u64_bool` returns `Ok(true)` iff the integer
equals 1 and `Ok(false)` otherwise, with no range error; a negative JSON
integer fails with an invalid-type error (the visitor implements only
`visit_u64`), and every non-integer JSON value also fails with an
invalid-type error. -/
theorem C2_flag_decode :
    (∀ v : Nat, deserialize_u64_bool (.num (.uint v)) = .ok (v == 1)) ∧
    deserialize_u64_bool (.num (.uint 1)) = .ok true ∧
    (∀ v : Nat, v ≠ 1 → deserialize_u64_bool (.num (.uint v)) = .ok false) ∧
    (∀ i : Int, deserialize_u64_bool (.num (.nint i)) =
       .error (.invalidType (.sintVal i) boolExpecting)) ∧
    (∀ s : String, deserialize_u64_bool (.str s) =
       .error (.invalidType (.strVal s) boolExpecting)) ∧
    (∀ b : Bool, deserialize_u64_bool (.bool b) =
       .error (.invalidType (.boolVal b) boolExpecting)) ∧
    deserialize_u64_bool .null = .error (.invalidType .unitVal boolExpecting) := by
  refine ⟨fun v => rfl, rfl, ?_, fun i => rfl, fun s => rfl, fun b => rfl, rfl⟩
  intro v hv
  simp [deserialize_u64_bool, hv]

/-- C2 witness for the amended claim: the hypothesis-bearing part applied at
the concrete non-1 integer 7. -/
theorem C2_witness : deserialize_u64_bool (.num (.uint 7)) = .ok false :=
  C2_flag_decode.2.2.1 7 (by decide)

/-- C3: `serialize_bool_u64` writes the JSON integer 0 for both flag values;
in particular encoding `true` does not produce 1. -/
theorem C3_flag_encode :
    (∀ value : Bool, serialize_bool_u64 value = .num (.uint 0)) ∧
    serialize_bool_u64 true ≠ .num (.uint 1) := by
  exact ⟨fun value => by cases value <;> rfl, fun h => by cases h⟩

/-- C4: the Bit decode contract: a non-negative integer decodes to a signal
identifier; the lowercase strings "0", "1", "z", "x" decode to the constants;
any other string (including "Q", "Z", "X") fails with an invalid-value error
naming the string and carrying the accepted-alternatives message; booleans,
null and negative integers fail with an invalid-type error naming the value
and carrying the same message. -/
theorem C4_bit_decode_contract :
    (∀ n : Nat, Bit.deserialize (.num (.uint n)) = .ok (.Signal n)) ∧
    Bit.deserialize (.str "0") = .ok ._0 ∧
    Bit.deserialize (.str "1") = .ok ._1 ∧
    Bit.deserialize (.str "z") = .ok .Z ∧
    Bit.deserialize (.str "x") = .ok .X ∧
    Bit.deserialize (.str "Q") = .error (.invalidValue (.strVal "Q") bitExpecting) ∧
    Bit.deserialize (.str "Z") = .error (.invalidValue (.strVal "Z") bitExpecting) ∧
    Bit.deserialize (.str "X") = .error (.invalidValue (.strVal "X") bitExpecting) ∧
    (∀ s : String, s ≠ "0" → s ≠ "1" → s ≠ "z" → s ≠ "x" →
       Bit.deserialize (.str s) = .error (.invalidValue (.strVal s) bitExpecting)) ∧
    (∀ b : Bool, Bit.deserialize (.bool b) =
       .error (.invalidType (.boolVal b) bitExpecting)) ∧
    Bit.deserialize .null = .error (.invalidType .unitVal bitExpecting) ∧
    (∀ i : Int, Bit.deserialize (.num (.nint i)) =
       .error (.invalidType (.sintVal i) bitExpecting)) := by
  refine ⟨fun n => rfl, rfl, rfl, rfl, rfl, rfl, rfl, rfl, ?_,
    fun b => rfl, rfl, fun i => rfl⟩
  intro s h0 h1 hz hx
  show BitVisitor.visitStr s = _
  unfold BitVisitor.visitStr
  split
  · exact absurd rfl h0
  · exact absurd rfl h1
  · exact absurd rfl hz
  · exact absurd rfl hx
  · rfl

/-- C4 witness: the hypothesis-bearing string part applied at the concrete
unrecognized string "q0". -/
theorem C4_witness :
    Bit.deserialize (.str "q0") = .error (.invalidValue (.strVal "q0") bitExpecting) :=
  C4_bit_decode_contract.2.2.2.2.2.2.2.2.1 "q0" (by decide) (by decide) (by decide) (by decide)

/-- C9: the end-to-end scenario: the given document decodes to a netlist with
creator "t", one module "m", one port "p" of direction Input with bits
[Signal 0, constant-1, constant-X], offset 0, upto 0, signed false, and empty
passthrough everywhere; re-encoding emits the known fields in schema order
with no passthrough members. -/
theorem C9_end_to_end :
    Netlist.deserialize C9doc = .ok C9netlist ∧
    Netlist.serialize C9netlist = C9encoded ∧
    C9netlist.extra = [] ∧ C9module.extra = [] ∧ C9port.extra = [] :=
  ⟨rfl, rfl, rfl, rfl, rfl⟩

/-- C10: the "upto" and "offset" fields of both Port and Net decode and
re-encode as plain unsigned integers: any u64 value v round-trips verbatim
through all four field/entity combinations (Port upto, Port offset, Net upto,
Net offset) — unlike the boolean-flag encoder, the encoder does not coerce
these fields to 0. -/
theorem C10_upto_offset_roundtrip (v : Nat) (hv : v < 2 ^ 64) :
    Port.deserialize (.obj [("direction", .str "input"), ("bits", .arr []),
        ("upto", .num (.uint v))]) = .ok (uptoPort v) ∧
    Port.serialize (uptoPort v) =
      .obj [("direction", .str "input"), ("bits", .arr []),
            ("offset", .num (.uint 0)), ("upto", .num (.uint v)),
            ("signed", .num (.uint 0))] ∧
    Port.deserialize (.obj [("direction", .str "input"), ("bits", .arr []),
        ("offset", .num (.uint v))]) = .ok (offsetPort v) ∧
    Port.serialize (offsetPort v) =
      .obj [("direction", .str "input"), ("bits", .arr []),
            ("offset", .num (.uint v)), ("upto", .num (.uint 0)),
            ("signed", .num (.uint 0))] ∧
    Net.deserialize (.obj [("bits", .arr []), ("upto", .num (.uint v))]) =
      .ok (uptoNet v) ∧
    Net.serialize (uptoNet v) =
      .obj [("hide_name", .num (.uint 0)), ("attributes", .obj []),
            ("bits", .arr []), ("offset", .num (.uint 0)),
            ("upto", .num (.uint v)), ("signed", .num (.uint 0))] ∧
    Net.deserialize (.obj [("bits", .arr []), ("offset", .num (.uint v))]) =
      .ok (offsetNet v) ∧
    Net.serialize (offsetNet v) =
      .obj [("hide_name", .num (.uint 0)), ("attributes", .obj []),
            ("bits", .arr []), ("offset", .num (.uint v)),
            ("upto", .num (.uint 0)), ("signed", .num (.uint 0))] :=
  ⟨rfl, rfl, rfl, rfl, rfl, rfl, rfl, rfl⟩

/-- C10 witness: the Port "upto" and Net "offset" round-trips at the concrete
value 5. -/
theorem C10_witness :
    Port.deserialize (.obj [("direction", .str "input"), ("bits", .arr []),
        ("upto", .num (.uint 5))]) = .ok (uptoPort 5) ∧
    Port.serialize (uptoPort 5) =
      .obj [("direction", .str "input"), ("bits", .arr []),
            ("offset", .num (.uint 0)), ("upto", .num (.uint 5)),
            ("signed", .num (.uint 0))] ∧
    Net.deserialize (.obj [("bits", .arr []), ("offset", .num (.uint 5))]) =
      .ok (offsetNet 5) ∧
    Net.serialize (offsetNet 5) =
      .obj [("hide_name", .num (.uint 0)), ("attributes", .obj []),
            ("bits", .arr []), ("offset", .num (.uint 5)),
            ("upto", .num (.uint 0)), ("signed", .num (.uint 0))] := by
  obtain ⟨h1, h2, -, -, -, -, h7, h8⟩ := C10_upto_offset_roundtrip 5 (by norm_num)
  exact ⟨h1, h2, h7, h8⟩

end YosysNetlist
